import Mathlib

/-! AIOC register protocol: frame codec, flag codecs and foxhunt codecs.

A shallow embedding of `aioc.go` and of the codec parts of `main.go`.

Conventions of the embedding:
* a byte is a `Nat` below 256, a `uint32` is a `Nat` below `2 ^ 32`; every
  conversion to a narrower machine type is written as an explicit `%`;
* a Go `string` holding text is a Lean `String` (a sequence of code points),
  a Go `[]byte` is a `List Nat`;
* the HID handle is an explicit state (`HidDevice`) that logs every frame it
  is handed, so that "the frame handed to the transport" is an observable;
* a Go `error` is a value of `AIOCError`, one constructor per `fmt.Errorf`
  site; a run-time panic is `none`.
-/

namespace AIOC

/-! ## Constants of `aioc.go` -/

/-- Register address `RegMAGIC`. -/
def RegMAGIC : Nat := 0x00
/-- Register address `RegAUDIORX`. -/
def RegAUDIORX : Nat := 0x72
/-- Register address `RegFOXHUNTCTRL`. -/
def RegFOXHUNTCTRL : Nat := 0xA0
/-- Register address `RegFOXHUNTMSG0`. -/
def RegFOXHUNTMSG0 : Nat := 0xA2
/-- Register address `RegFOXHUNTMSG1`. -/
def RegFOXHUNTMSG1 : Nat := 0xA3
/-- Register address `RegFOXHUNTMSG2`. -/
def RegFOXHUNTMSG2 : Nat := 0xA4
/-- Register address `RegFOXHUNTMSG3`. -/
def RegFOXHUNTMSG3 : Nat := 0xA5

/-- Command byte `CmdNONE`. -/
def CmdNONE : Nat := 0x00
/-- Command byte `CmdWRITESTROBE`. -/
def CmdWRITESTROBE : Nat := 0x01

/-- Constant `PTTChannel1` of `aioc.go`. -/
def PTTChannel1 : Int := 3
/-- Constant `PTTChannel2` of `aioc.go`. -/
def PTTChannel2 : Int := 4

/-- The errors built by `fmt.Errorf` in `aioc.go` and `main.go`, one
constructor per call site; the payload is what the message is formatted
from. -/
inductive AIOCError where
  /-- "failed to send feature report: %w" -/
  | sendFeatureReport
  /-- "failed to get feature report: %w" -/
  | getFeatureReport
  /-- "short read: got %d bytes, expected 7" -/
  | shortRead (n : Nat)
  /-- "failed to write register: %w" -/
  | writeRegister
  /-- "failed to write PTT state: %w" -/
  | writePTTState
  /-- "incomplete write: wrote %d bytes, expected %d" -/
  | incompleteWrite (n expected : Nat)
  /-- "unknown PTT source: %s" -/
  | unknownPTTSource (token : String)
  /-- "unknown button source: %s" -/
  | unknownButtonSource (token : String)
  deriving DecidableEq, Repr

deriving instance DecidableEq for Except

/-! ## The HID transport as explicit state -/

/-- The `hid.Device` handle. The three logs record what the program did to
the handle; the three functions are the behaviour of the hardware behind it,
which the program does not control. -/
structure HidDevice where
  /-- every frame handed to `SendFeatureReport`, oldest first -/
  featureLog : List (List Nat)
  /-- every frame handed to the raw `Write`, oldest first -/
  outputLog : List (List Nat)
  /-- whether `Close` has been called on the handle -/
  closed : Bool
  /-- whether `SendFeatureReport` of this frame succeeds -/
  sendFeatureOk : List Nat → Bool
  /-- the bytes the device delivers to `GetFeatureReport` after the given
  history of feature reports, or `none` for a transport error -/
  featureResponse : List (List Nat) → Option (List Nat)
  /-- the byte count the raw `Write` of this frame reports, or `none` for a
  transport error -/
  writeResult : List Nat → Option Nat

/-- Transport call `SendFeatureReport(p)`: the frame reaches the transport
whether or not the transfer succeeds. -/
def HidDevice.SendFeatureReport (d : HidDevice) (p : List Nat) : Option Nat × HidDevice :=
  ((if d.sendFeatureOk p then some p.length else none),
   { d with featureLog := d.featureLog ++ [p] })

/-- Transport call `GetFeatureReport(p)`: at most `len(p)` bytes are copied
into the front of the buffer `p`; the count and the buffer are returned. -/
def HidDevice.GetFeatureReport (d : HidDevice) (p : List Nat) : Option (Nat × List Nat) :=
  match d.featureResponse d.featureLog with
  | none => none
  | some r => some ((r.take p.length).length, r.take p.length ++ p.drop (r.take p.length).length)

/-- Transport call `Write(p)` (raw output report). -/
def HidDevice.Write (d : HidDevice) (p : List Nat) : Option Nat × HidDevice :=
  (d.writeResult p, { d with outputLog := d.outputLog ++ [p] })

/-! ## Frame codec (`aioc.go`) -/

/-- Library call `binary.LittleEndian.PutUint32`: the four bytes written. -/
def putUint32 (v : Nat) : List Nat :=
  [v % 256, (v >>> 8) % 256, (v >>> 16) % 256, (v >>> 24) % 256]

/-- Library call `binary.LittleEndian.Uint32` on a four-byte slice. -/
def uint32LE (b : List Nat) : Nat :=
  (b.getD 0 0 ||| (b.getD 1 0 <<< 8) ||| (b.getD 2 0 <<< 16) ||| (b.getD 3 0 <<< 24)) % 2 ^ 32

/-- The 8-byte buffer that `Read`, `Write` and `SendCommand` all build:
`make([]byte, 8)`, then bytes 0, 1, 2 assigned and `PutUint32` into `[3:7]`. -/
def registerFrame (cmd address value : Nat) : List Nat :=
  let data := List.replicate 8 0
  let data := data.set 0 0
  let data := data.set 1 (cmd % 256)
  let data := data.set 2 (address % 256)
  data.take 3 ++ putUint32 value ++ data.drop 7

/-- Method `AIOCDevice.Read`. -/
def Read (d : HidDevice) (address : Nat) : Except AIOCError Nat × HidDevice :=
  let request := registerFrame CmdNONE address 0
  match d.SendFeatureReport request with
  | (none, d1) => (.error .sendFeatureReport, d1)
  | (some _, d1) =>
    let response := List.replicate 7 0
    match d1.GetFeatureReport response with
    | none => (.error .getFeatureReport, d1)
    | some (n, response) =>
      if n < 7 then (.error (.shortRead n), d1)
      else (.ok (uint32LE ((response.take 7).drop 3)), d1)

/-- Method `AIOCDevice.Write`. -/
def Write (d : HidDevice) (address value : Nat) : Except AIOCError Unit × HidDevice :=
  let data := registerFrame CmdWRITESTROBE address value
  match d.SendFeatureReport data with
  | (none, d1) => (.error .writeRegister, d1)
  | (some _, d1) => (.ok (), d1)

/-- The frame `SetPTTState` builds: `state`, `ioMask` and `ioData` are
`uint8`, and a negative shift count is a run-time panic (`none`). -/
def pttFrame (channel : Int) (isOn : Bool) : Option (List Nat) :=
  let state : Nat := if isOn then 1 else 0
  if channel - 1 < 0 then none
  else
    let ioMask := (1 <<< (channel - 1).toNat) % 256
    let ioData := (state <<< (channel - 1).toNat) % 256
    some [0, 0, ioData, ioMask, 0]

/-- Method `AIOCDevice.SetPTTState`; `none` is the panic of `pttFrame`. -/
def SetPTTState (d : HidDevice) (channel : Int) (isOn : Bool) :
    Option (Except AIOCError Unit × HidDevice) :=
  match pttFrame channel isOn with
  | none => none
  | some data =>
    match d.Write data with
    | (none, d1) => some (.error .writePTTState, d1)
    | (some n, d1) =>
      if n ≠ data.length then some (.error (.incompleteWrite n data.length), d1)
      else some (.ok (), d1)

/-- The `--set-ptt1-state` step of `main`: skipped for the empty text,
otherwise `SetPTTState(PTTChannel1, text == "on")`. -/
def mainSetPTT1State (d : HidDevice) (text : String) :
    Option (Except AIOCError Unit × HidDevice) :=
  if text ≠ "" then SetPTTState d PTTChannel1 (decide (text = "on")) else some (.ok (), d)

/-- The `--set-ptt2-state` step of `main`: skipped for the empty text,
otherwise `SetPTTState(PTTChannel2, text == "on")`. -/
def mainSetPTT2State (d : HidDevice) (text : String) :
    Option (Except AIOCError Unit × HidDevice) :=
  if text ≠ "" then SetPTTState d PTTChannel2 (decide (text = "on")) else some (.ok (), d)

/-- A device handle on which nothing has happened yet and behind which
every transfer succeeds; `GetFeatureReport` delivers `resp`. -/
def idleDevice (resp : List Nat) : HidDevice :=
  { featureLog := [], outputLog := [], closed := false,
    sendFeatureOk := fun _ => true,
    featureResponse := fun _ => some resp,
    writeResult := fun p => some p.length }

/-! ## Flag vocabularies (`aioc.go`) -/

/-- Flag `PTTSourceNONE`. -/
def PTTSourceNONE : Nat := 0x00000000
/-- Flag `PTTSourceCM108GPIO1`. -/
def PTTSourceCM108GPIO1 : Nat := 0x00000001
/-- Flag `PTTSourceCM108GPIO2`. -/
def PTTSourceCM108GPIO2 : Nat := 0x00000002
/-- Flag `PTTSourceCM108GPIO3`. -/
def PTTSourceCM108GPIO3 : Nat := 0x00000004
/-- Flag `PTTSourceCM108GPIO4`. -/
def PTTSourceCM108GPIO4 : Nat := 0x00000008
/-- Flag `PTTSourceSERIALDTR`. -/
def PTTSourceSERIALDTR : Nat := 0x00000100
/-- Flag `PTTSourceSERIALRTS`. -/
def PTTSourceSERIALRTS : Nat := 0x00000200
/-- Flag `PTTSourceSERIALDTRNRTS`. -/
def PTTSourceSERIALDTRNRTS : Nat := 0x00000400
/-- Flag `PTTSourceSERIALNDTRRTS`. -/
def PTTSourceSERIALNDTRRTS : Nat := 0x00000800
/-- Flag `PTTSourceVPTT`. -/
def PTTSourceVPTT : Nat := 0x00001000

/-- Flag `CM108ButtonSourceNONE`. -/
def CM108ButtonSourceNONE : Nat := 0x00000000
/-- Flag `CM108ButtonSourceIN1`. -/
def CM108ButtonSourceIN1 : Nat := 0x00010000
/-- Flag `CM108ButtonSourceIN2`. -/
def CM108ButtonSourceIN2 : Nat := 0x00020000
/-- Flag `CM108ButtonSourceVCOS`. -/
def CM108ButtonSourceVCOS : Nat := 0x01000000

/-! ## String library calls used by `main.go` -/

/-- Library predicate `unicode.IsSpace`. -/
def isSpace (c : Char) : Bool :=
  let r := c.toNat
  r = 0x09 || r = 0x0A || r = 0x0B || r = 0x0C || r = 0x0D || r = 0x20 || r = 0x85 ||
    r = 0xA0 || r = 0x1680 || (0x2000 ≤ r && r ≤ 0x200A) || r = 0x2028 || r = 0x2029 ||
    r = 0x202F || r = 0x205F || r = 0x3000

/-- Library call `strings.TrimSpace`: leading and trailing white space
removed. -/
def TrimSpace (s : String) : String :=
  ⟨(s.data.dropWhile isSpace).rdropWhile isSpace⟩

/-- The pieces of a text between the occurrences of `sep`. -/
def splitChars (sep : Char) : List Char → List (List Char)
  | [] => [[]]
  | c :: cs =>
    if c = sep then [] :: splitChars sep cs
    else
      match splitChars sep cs with
      | [] => [[c]]
      | piece :: pieces => (c :: piece) :: pieces

/-- Library call `strings.Split(s, "|")`. -/
def Split (s : String) : List String :=
  (splitChars '|' s.data).map String.mk

/-- Library call `strings.Join(elems, "|")`. -/
def Join (elems : List String) : String :=
  ⟨List.intercalate ['|'] (elems.map String.data)⟩

/-- One lowercase hexadecimal digit. -/
def hexDigit (n : Nat) : Char :=
  if n < 10 then Char.ofNat (48 + n) else Char.ofNat (87 + n)

/-- Library call `fmt.Sprintf("0x%08x", v)` for a `uint32` argument, which
has at most eight hexadecimal digits. -/
def sprintfHex08 (v : Nat) : String :=
  ⟨['0', 'x'] ++ (List.range 8).map (fun i => hexDigit ((v >>> (4 * (7 - i))) % 16))⟩

/-! ## Flag codecs (`main.go`) -/

/-- The `for _, p := range parts` loop of `parsePTTSource`, `result` being
the accumulator; the `switch` is the chain of comparisons. -/
def parsePTTSourceLoop : List String → Nat → Except AIOCError Nat
  | [], result => .ok result
  | p :: parts, result =>
    let p := TrimSpace p
    if p = "NONE" then parsePTTSourceLoop parts (result ||| PTTSourceNONE)
    else if p = "CM108GPIO1" then parsePTTSourceLoop parts (result ||| PTTSourceCM108GPIO1)
    else if p = "CM108GPIO2" then parsePTTSourceLoop parts (result ||| PTTSourceCM108GPIO2)
    else if p = "CM108GPIO3" then parsePTTSourceLoop parts (result ||| PTTSourceCM108GPIO3)
    else if p = "CM108GPIO4" then parsePTTSourceLoop parts (result ||| PTTSourceCM108GPIO4)
    else if p = "SERIALDTR" then parsePTTSourceLoop parts (result ||| PTTSourceSERIALDTR)
    else if p = "SERIALRTS" then parsePTTSourceLoop parts (result ||| PTTSourceSERIALRTS)
    else if p = "SERIALDTRNRTS" then
      parsePTTSourceLoop parts (result ||| PTTSourceSERIALDTRNRTS)
    else if p = "SERIALNDTRRTS" then
      parsePTTSourceLoop parts (result ||| PTTSourceSERIALNDTRRTS)
    else if p = "VPTT" then parsePTTSourceLoop parts (result ||| PTTSourceVPTT)
    else .error (.unknownPTTSource p)

/-- Function `parsePTTSource`. -/
def parsePTTSource (val : String) : Except AIOCError Nat :=
  if val = "" then .ok 0
  else parsePTTSourceLoop (Split val) 0

/-- The `for _, p := range parts` loop of `parseCM108ButtonSource`. -/
def parseCM108ButtonSourceLoop : List String → Nat → Except AIOCError Nat
  | [], result => .ok result
  | p :: parts, result =>
    let p := TrimSpace p
    if p = "NONE" then parseCM108ButtonSourceLoop parts (result ||| CM108ButtonSourceNONE)
    else if p = "IN1" then parseCM108ButtonSourceLoop parts (result ||| CM108ButtonSourceIN1)
    else if p = "IN2" then parseCM108ButtonSourceLoop parts (result ||| CM108ButtonSourceIN2)
    else if p = "VCOS" then parseCM108ButtonSourceLoop parts (result ||| CM108ButtonSourceVCOS)
    else .error (.unknownButtonSource p)

/-- Function `parseCM108ButtonSource`. -/
def parseCM108ButtonSource (val : String) : Except AIOCError Nat :=
  if val = "" then .ok 0
  else parseCM108ButtonSourceLoop (Split val) 0

/-- Function `pttSourceString`. -/
def pttSourceString (src : Nat) : String :=
  if src = PTTSourceNONE then "NONE"
  else
    let parts : List String := []
    let parts := if src &&& PTTSourceCM108GPIO1 ≠ 0 then parts ++ ["CM108GPIO1"] else parts
    let parts := if src &&& PTTSourceCM108GPIO2 ≠ 0 then parts ++ ["CM108GPIO2"] else parts
    let parts := if src &&& PTTSourceCM108GPIO3 ≠ 0 then parts ++ ["CM108GPIO3"] else parts
    let parts := if src &&& PTTSourceCM108GPIO4 ≠ 0 then parts ++ ["CM108GPIO4"] else parts
    let parts := if src &&& PTTSourceSERIALDTR ≠ 0 then parts ++ ["SERIALDTR"] else parts
    let parts := if src &&& PTTSourceSERIALRTS ≠ 0 then parts ++ ["SERIALRTS"] else parts
    let parts :=
      if src &&& PTTSourceSERIALDTRNRTS ≠ 0 then parts ++ ["SERIALDTRNRTS"] else parts
    let parts :=
      if src &&& PTTSourceSERIALNDTRRTS ≠ 0 then parts ++ ["SERIALNDTRRTS"] else parts
    let parts := if src &&& PTTSourceVPTT ≠ 0 then parts ++ ["VPTT"] else parts
    if parts.length = 0 then sprintfHex08 src
    else Join parts

/-- Function `cm108ButtonSourceString`. -/
def cm108ButtonSourceString (src : Nat) : String :=
  if src = CM108ButtonSourceNONE then "NONE"
  else
    let parts : List String := []
    let parts := if src &&& CM108ButtonSourceIN1 ≠ 0 then parts ++ ["IN1"] else parts
    let parts := if src &&& CM108ButtonSourceIN2 ≠ 0 then parts ++ ["IN2"] else parts
    let parts := if src &&& CM108ButtonSourceVCOS ≠ 0 then parts ++ ["VCOS"] else parts
    if parts.length = 0 then sprintfHex08 src
    else Join parts

/-! ### The flag codecs as the specification words them -/

/-- The PTT-source vocabulary in declaration order: name and bit. -/
def pttVocabulary : List (String × Nat) :=
  [("NONE", 0x00000000), ("CM108GPIO1", 0x00000001), ("CM108GPIO2", 0x00000002),
   ("CM108GPIO3", 0x00000004), ("CM108GPIO4", 0x00000008), ("SERIALDTR", 0x00000100),
   ("SERIALRTS", 0x00000200), ("SERIALDTRNRTS", 0x00000400),
   ("SERIALNDTRRTS", 0x00000800), ("VPTT", 0x00001000)]

/-- The button-source vocabulary in declaration order: name and bit. -/
def cm108Vocabulary : List (String × Nat) :=
  [("NONE", 0x00000000), ("IN1", 0x00010000), ("IN2", 0x00020000), ("VCOS", 0x01000000)]

/-- Case-sensitive lookup of a name in a vocabulary. -/
def lookupFlag (vocab : List (String × Nat)) (name : String) : Option Nat :=
  (vocab.find? (fun e => name = e.1)).map Prod.snd

/-- Specification of `parseFlags`, following the spec's words: the empty
text is the zero mask; otherwise split on the bar, trim every token, and
either report the first token that is not a vocabulary name or OR the bits of
all tokens together. The result is the offending token or the mask. -/
def parseFlagsSpec (vocab : List (String × Nat)) (text : String) : Except String Nat :=
  if text = "" then .ok 0
  else
    let tokens := (Split text).map TrimSpace
    match tokens.find? (fun t => (lookupFlag vocab t).isNone) with
    | some t => .error t
    | none => .ok (tokens.foldl (fun mask t => mask ||| (lookupFlag vocab t).getD 0) 0)

/-- Specification of the named part of `formatFlags`, following the spec's
words: the names of the vocabulary flags whose bit is set in the mask, in
declaration order, joined with the bar. -/
def formatFlagsSpec (vocab : List (String × Nat)) (mask : Nat) : String :=
  Join ((vocab.filter (fun e => mask &&& e.2 ≠ 0)).map Prod.fst)

/-- Canonical form of a list of vocabulary names: the names of the flags
with a non-zero bit that occur in the list, each once, in declaration order,
joined with the bar; "NONE" when there is none. -/
def canonicalForm (vocab : List (String × Nat)) (names : List String) : String :=
  let present := (vocab.filter (fun e => e.2 ≠ 0 ∧ e.1 ∈ names)).map Prod.fst
  if present = [] then "NONE" else Join present

/-- Canonical form as the claim words it: every distinct vocabulary name
that occurs in the list, each once, in declaration order, joined with the
bar; "NONE" when no flag with a non-zero bit occurs. -/
def canonicalFormAllNames (vocab : List (String × Nat)) (names : List String) : String :=
  if (vocab.filter (fun e => e.2 ≠ 0 ∧ e.1 ∈ names)) = [] then "NONE"
  else Join ((vocab.filter (fun e => e.1 ∈ names)).map Prod.fst)

/-! ## Foxhunt codecs (`main.go`) -/

/-- The three field extractions of `main` (foxhunt-get-settings and the
head of the foxhunt control update): volume, wpm, interval. -/
def unpackControl (currentFoxhunt : Nat) : Nat × Nat × Nat :=
  ((currentFoxhunt >>> 16) &&& 0xFFFF, (currentFoxhunt >>> 8) &&& 0xFF, currentFoxhunt &&& 0xFF)

/-- The two's-complement bit pattern of a 64-bit Go `int`. -/
def intBits (x : Int) : Nat := (x % 2 ^ 64).toNat

/-- The expression `uint32((newVolume << 16) | (newWPM << 8) | newInterval)`
of `main` on 64-bit `int` operands. -/
def packControl (newVolume newWPM newInterval : Int) : Nat :=
  (((intBits newVolume <<< 16) % 2 ^ 64) ||| ((intBits newWPM <<< 8) % 2 ^ 64) |||
    intBits newInterval) % 2 ^ 32

/-- The foxhunt control update of `main`: given the value read from
`FOXHUNT_CTRL` and the three settings (`-1` meaning "not supplied"), the
value written to `FOXHUNT_CTRL`, or `none` when the step is skipped. -/
def foxhuntControlUpdate (currentFoxhunt : Nat) (foxhuntVolume foxhuntWPM foxhuntInterval : Int) :
    Option Nat :=
  if foxhuntVolume ≠ -1 ∨ foxhuntWPM ≠ -1 ∨ foxhuntInterval ≠ -1 then
    let currentVolume : Int := ((currentFoxhunt >>> 16) &&& 0xFFFF : Nat)
    let currentWPM : Int := ((currentFoxhunt >>> 8) &&& 0xFF : Nat)
    let currentInterval : Int := (currentFoxhunt &&& 0xFF : Nat)
    let newVolume := if foxhuntVolume ≠ -1 then foxhuntVolume else currentVolume
    let newWPM := if foxhuntWPM ≠ -1 then foxhuntWPM else currentWPM
    let newInterval := if foxhuntInterval ≠ -1 then foxhuntInterval else currentInterval
    some (packControl newVolume newWPM newInterval)
  else none

/-- The 16-byte buffer of the foxhunt-message step: the text cut to 16
bytes, then null bytes appended while it is shorter than 16. -/
def messageBuffer (message : List Nat) : List Nat :=
  let messageBytes := if message.length > 16 then message.take 16 else message
  messageBytes ++ List.replicate (16 - messageBytes.length) 0

/-- The value `val` computed for message register `i` from the buffer. -/
def messageRegisterValue (messageBytes : List Nat) (i : Nat) : Nat :=
  let byteOffset := i * 4
  (messageBytes.getD byteOffset 0 |||
    ((messageBytes.getD (byteOffset + 1) 0 <<< 8) % 2 ^ 32) |||
    ((messageBytes.getD (byteOffset + 2) 0 <<< 16) % 2 ^ 32) |||
    ((messageBytes.getD (byteOffset + 3) 0 <<< 24) % 2 ^ 32)) % 2 ^ 32

/-- The slice `msgRegisters` of `main`. -/
def msgRegisters : List Nat :=
  [RegFOXHUNTMSG0, RegFOXHUNTMSG1, RegFOXHUNTMSG2, RegFOXHUNTMSG3]

/-- The four register values the body of the foxhunt-message step computes,
in the order MSG0..MSG3. -/
def encodeMessage (message : List Nat) : List Nat :=
  (List.range 4).map (messageRegisterValue (messageBuffer message))

/-- The foxhunt-message step of `main`: the register writes it issues, as
(address, value) pairs in order; the step is skipped for the empty text. -/
def foxhuntMessageWrites (message : List Nat) : List (Nat × Nat) :=
  if message ≠ [] then
    (List.range 4).map
      (fun i => (msgRegisters.getD i 0, messageRegisterValue (messageBuffer message) i))
  else []

/-- The foxhunt-message step of `main` on the device: every write goes
through `Write`, whose error is discarded. -/
def mainFoxhuntMessage (d : HidDevice) (message : List Nat) : HidDevice :=
  (foxhuntMessageWrites message).foldl (fun dev w => (Write dev w.1 w.2).2) d

/-- The slice `regBytes` the foxhunt-get-message step builds from a value
read. -/
def regBytes (val : Nat) : List Nat :=
  [val % 256, (val >>> 8) % 256, (val >>> 16) % 256, (val >>> 24) % 256]

/-- The search for the null terminator: the index of the first null byte,
`none` standing for `-1`. -/
def nullIdx (messageBytes : List Nat) : Option Nat :=
  messageBytes.findIdx? (fun b => b = 0)

/-- The foxhunt-get-message step of `main` on the values read from
MSG0..MSG3: the bytes of `messageStr`. -/
def decodeMessage (vals : List Nat) : List Nat :=
  let messageBytes := vals.foldl (fun acc val => acc ++ regBytes val) []
  match nullIdx messageBytes with
  | some idx => messageBytes.take idx
  | none => messageBytes

/-! ### Hexadecimal numerals as the specification words them -/

/-- The value of one lowercase hexadecimal digit; `none` for any other
character, an uppercase digit included. -/
def hexDigitValue (c : Char) : Option Nat :=
  if '0' ≤ c ∧ c ≤ '9' then some (c.toNat - '0'.toNat)
  else if 'a' ≤ c ∧ c ≤ 'f' then some (c.toNat - 'a'.toNat + 10)
  else none

/-- The value of a lowercase hexadecimal numeral read from the left, most
significant digit first, on top of the value `acc` read so far. -/
def hexValue : List Char → Nat → Option Nat
  | [], acc => some acc
  | c :: cs, acc =>
    match hexDigitValue c with
    | some d => hexValue cs (acc * 16 + d)
    | none => none

/-- The declared PTT-source flag bits. -/
def pttFlagBits : List Nat :=
  [0x1, 0x2, 0x4, 0x8, 0x100, 0x200, 0x400, 0x800, 0x1000]

/-- The declared button-source flag bits. -/
def cm108FlagBits : List Nat :=
  [0x00010000, 0x00020000, 0x01000000]

/-- The masks that are subsets of a list of flag bits: the OR of every
sub-list, the empty one (mask zero) included. -/
def subsetMasks (bits : List Nat) : List Nat :=
  bits.sublists.map (fun chosen => chosen.foldl (fun mask b => mask ||| b) 0)

/-! ## Device session (`aioc.go`) and the flag steps of `main` -/

/-- Constant `AIOCVendorID`. -/
def AIOCVendorID : Nat := 0x1209
/-- Constant `AIOCProductID`. -/
def AIOCProductID : Nat := 0x7388
/-- Register address `RegAIOCIOMUX0`. -/
def RegAIOCIOMUX0 : Nat := 0x24
/-- Register address `RegAIOCIOMUX1`. -/
def RegAIOCIOMUX1 : Nat := 0x25
/-- Register address `RegCM108IOMUX0`. -/
def RegCM108IOMUX0 : Nat := 0x44
/-- Register address `RegCM108IOMUX1`. -/
def RegCM108IOMUX1 : Nat := 0x45

/-- The errors `Open` builds, one constructor per `fmt.Errorf` site. -/
inductive OpenError where
  /-- "failed to open device: %w" -/
  | openDevice
  /-- "failed to read magic: %w" -/
  | readMagic (cause : AIOCError)
  /-- "unexpected magic: %s" -/
  | unexpectedMagic (magicBytes : List Nat)
  deriving DecidableEq, Repr

/-- Transport call `Close()` on the handle. -/
def HidDevice.Close (d : HidDevice) : HidDevice :=
  { d with closed := true }

/-- The byte slice `[]byte("AIOC")`. -/
def magicAIOC : List Nat := "AIOC".data.map Char.toNat

/-- Function `Open`. `openFirst` is the library call `hid.OpenFirst`, which
yields a handle or fails. The second component is the transport handle as
`Open` leaves it when it returns, `none` when none was acquired. -/
def Open (openFirst : Nat → Nat → Option HidDevice) (vid pid : Nat) :
    Except OpenError HidDevice × Option HidDevice :=
  match openFirst vid pid with
  | none => (.error .openDevice, none)
  | some device =>
    match Read device RegMAGIC with
    | (.error err, device) => (.error (.readMagic err), some device.Close)
    | (.ok magic, device) =>
      let magicBytes := putUint32 magic
      if magicBytes ≠ magicAIOC then (.error (.unexpectedMagic magicBytes), some device.Close)
      else (.ok device, some device)

/-- What `main` prints to standard error before `os.Exit(1)`, one
constructor per message of the steps embedded here. -/
inductive MainFailure where
  /-- "Could not open AIOC device (VID: ..., PID: ...): %v" -/
  | couldNotOpen (err : OpenError)
  /-- "Failed to parse PTT1 source: %v" -/
  | parsePTT1 (err : AIOCError)
  /-- "Failed to parse PTT2 source: %v" -/
  | parsePTT2 (err : AIOCError)
  /-- "Failed to parse VolUp source: %v" -/
  | parseVolUp (err : AIOCError)
  /-- "Failed to parse VolDn source: %v" -/
  | parseVolDn (err : AIOCError)
  deriving DecidableEq, Repr

/-- The `--ptt1` / `--ptt2` step of `main` on the open session: the failure
reported, if any, and the handle afterwards. The results of `Write` and of
the two closing `Read`s are discarded, as in the source. -/
def mainPTTStep (aioc : HidDevice) (PTT1 PTT2 : String) : Option MainFailure × HidDevice :=
  if PTT1 ≠ "" ∨ PTT2 ≠ "" then
    match (if PTT1 ≠ "" then
        match parsePTTSource PTT1 with
        | .error err => (some (MainFailure.parsePTT1 err), aioc)
        | .ok val => (none, (Write aioc RegAIOCIOMUX0 val).2)
      else (none, aioc)) with
    | (some failure, aioc) => (some failure, aioc)
    | (none, aioc) =>
      match (if PTT2 ≠ "" then
          match parsePTTSource PTT2 with
          | .error err => (some (MainFailure.parsePTT2 err), aioc)
          | .ok val => (none, (Write aioc RegAIOCIOMUX1 val).2)
        else (none, aioc)) with
      | (some failure, aioc) => (some failure, aioc)
      | (none, aioc) =>
        let aioc := (Read aioc RegAIOCIOMUX0).2
        let aioc := (Read aioc RegAIOCIOMUX1).2
        (none, aioc)
  else (none, aioc)

/-- The `--vol-up` / `--vol-dn` step of `main` on the open session. -/
def mainVolStep (aioc : HidDevice) (VolUp VolDn : String) : Option MainFailure × HidDevice :=
  if VolUp ≠ "" ∨ VolDn ≠ "" then
    match (if VolUp ≠ "" then
        match parseCM108ButtonSource VolUp with
        | .error err => (some (MainFailure.parseVolUp err), aioc)
        | .ok su => (none, (Write aioc RegCM108IOMUX0 su).2)
      else (none, aioc)) with
    | (some failure, aioc) => (some failure, aioc)
    | (none, aioc) =>
      match (if VolDn ≠ "" then
          match parseCM108ButtonSource VolDn with
          | .error err => (some (MainFailure.parseVolDn err), aioc)
          | .ok sd => (none, (Write aioc RegCM108IOMUX1 sd).2)
        else (none, aioc)) with
      | (some failure, aioc) => (some failure, aioc)
      | (none, aioc) =>
        let aioc := (Read aioc RegCM108IOMUX0).2
        let aioc := (Read aioc RegCM108IOMUX1).2
        (none, aioc)
  else (none, aioc)

/-- Function `main` for a run in which, of all options, only `--ptt1`,
`--ptt2`, `--vol-up` and `--vol-dn` may be given (every other option at its
default, so every other step is skipped): the device is opened with the
default ids, then the PTT step and the button step run in this order. The
result is the failure reported before `os.Exit(1)` (`none` when `main`
returns normally) and the transport handle at the end of the run; the
deferred `Close` runs only on the normal return. -/
def mainFlagRun (openFirst : Nat → Nat → Option HidDevice) (PTT1 PTT2 VolUp VolDn : String) :
    Option MainFailure × Option HidDevice :=
  match Open openFirst (AIOCVendorID % 2 ^ 16) (AIOCProductID % 2 ^ 16) with
  | (.error err, handle) => (some (.couldNotOpen err), handle)
  | (.ok aioc, _) =>
    match mainPTTStep aioc PTT1 PTT2 with
    | (some failure, aioc) => (some failure, some aioc)
    | (none, aioc) =>
      match mainVolStep aioc VolUp VolDn with
      | (some failure, aioc) => (some failure, some aioc)
      | (none, aioc) => (none, some aioc.Close)

/-! ## Theorems -/

/-! ### Little-endian arithmetic -/

theorem lor_shiftLeft_eq_add (a b i : Nat) (ha : a < 2 ^ i) : a ||| (b <<< i) = a + b * 2 ^ i := by
  rw [Nat.shiftLeft_eq, Nat.lor_comm, Nat.mul_comm b, ← Nat.mul_add_lt_is_or ha]
  omega

theorem lor_bytes (a b c e : Nat) (ha : a < 256) (hb : b < 256) (hc : c < 256) :
    a ||| (b <<< 8) ||| (c <<< 16) ||| (e <<< 24)
      = a + b * 2 ^ 8 + c * 2 ^ 16 + e * 2 ^ 24 := by
  have h1 : a ||| (b <<< 8) = a + b * 2 ^ 8 := lor_shiftLeft_eq_add a b 8 (by omega)
  have h2 : (a + b * 2 ^ 8) ||| (c <<< 16) = a + b * 2 ^ 8 + c * 2 ^ 16 :=
    lor_shiftLeft_eq_add _ c 16 (by omega)
  rw [h1, h2]
  exact lor_shiftLeft_eq_add _ e 24 (by omega)

theorem uint32LE_bytes (a b c e : Nat) (ha : a < 256) (hb : b < 256) (hc : c < 256)
    (he : e < 256) :
    uint32LE [a, b, c, e] = a + b * 2 ^ 8 + c * 2 ^ 16 + e * 2 ^ 24 := by
  simp only [uint32LE, List.getD_cons_zero, List.getD_cons_succ, lor_bytes a b c e ha hb hc]
  omega

theorem putUint32_bytes (a b c e : Nat) (ha : a < 256) (hb : b < 256) (hc : c < 256)
    (he : e < 256) :
    putUint32 (a + b * 2 ^ 8 + c * 2 ^ 16 + e * 2 ^ 24) = [a, b, c, e] := by
  simp only [putUint32, Nat.shiftRight_eq_div_pow]
  congr 1
  · omega
  congr 1
  · omega
  congr 1
  · omega
  congr 1
  omega

theorem uint32LE_putUint32 (v : Nat) (hv : v < 2 ^ 32) : uint32LE (putUint32 v) = v := by
  unfold putUint32
  rw [uint32LE_bytes _ _ _ _ (Nat.mod_lt _ (by decide)) (Nat.mod_lt _ (by decide))
    (Nat.mod_lt _ (by decide)) (Nat.mod_lt _ (by decide))]
  simp only [Nat.shiftRight_eq_div_pow]
  omega

/-! ### Frame codec -/

/-- C1: for every register address below 256 and every value below 2^32 the
frame `Write` hands to the transport is the 8 bytes
`[0, 0x01, address, v0, v1, v2, v3, 0]` with `v0..v3` the little-endian bytes
of the value, whatever the transfer then returns; and `Write(0x72, 2)` sends
`[0,1,0x72,2,0,0,0,0]`. -/
theorem write_frame (d : HidDevice) (address value : Nat)
    (ha : address < 256) (hv : value < 2 ^ 32) :
    (Write d address value).2.featureLog =
        d.featureLog ++ [[0, 0x01, address, value % 256, value / 2 ^ 8 % 256,
          value / 2 ^ 16 % 256, value / 2 ^ 24, 0]] ∧
      (Write d address value).2.outputLog = d.outputLog ∧
      (Write d RegAUDIORX 0x00000002).2.featureLog =
        d.featureLog ++ [[0, 0x01, 0x72, 0x02, 0x00, 0x00, 0x00, 0x00]] := by
  have h24 : value / 2 ^ 24 % 256 = value / 2 ^ 24 := by omega
  cases h : d.sendFeatureOk (registerFrame CmdWRITESTROBE address value) <;>
    cases h2 : d.sendFeatureOk (registerFrame CmdWRITESTROBE RegAUDIORX 2) <;>
    simp [Write, HidDevice.SendFeatureReport, h, h2] <;>
    simp [registerFrame, putUint32, CmdWRITESTROBE, RegAUDIORX, Nat.shiftRight_eq_div_pow,
      Nat.mod_eq_of_lt ha] <;>
    omega

/-- Witness for C1 at address 0xA0 and value 0x12345678. -/
theorem write_frame_witness :
    (Write (idleDevice []) 0xA0 0x12345678).2.featureLog =
      [[0, 0x01, 0xA0, 0x78, 0x56, 0x34, 0x12, 0]] := by
  have h := (write_frame (idleDevice []) 0xA0 0x12345678 (by decide) (by decide)).1
  simpa [idleDevice] using h

/-- What `Read` returns once the request was sent and the device delivered
`r`: the short-read error or the little-endian value of bytes 3..6. -/
theorem read_outcome (d : HidDevice) (address : Nat) (r : List Nat)
    (hsend : d.sendFeatureOk (registerFrame CmdNONE address 0) = true)
    (hresp : d.featureResponse (d.featureLog ++ [registerFrame CmdNONE address 0]) = some r) :
    (Read d address).1 =
      if r.length < 7 then .error (.shortRead r.length)
      else .ok (uint32LE ((r.take 7).drop 3)) := by
  simp only [Read, HidDevice.SendFeatureReport, hsend, if_true, HidDevice.GetFeatureReport, hresp]
  by_cases h : r.length < 7
  · have h7 : min 7 r.length = r.length := by omega
    simp [h, h7]
  · have h7 : min 7 r.length = 7 := by omega
    simp [h, h7, List.take_take]

/-- C2: when the request was sent and the transport delivers the bytes `r`,
`Read` returns the short-read error if `r` has fewer than 7 bytes, and
otherwise the number below 2^32 whose little-endian bytes are `r[3..6]`
(bytes 0..2 play no part); hence a response whose bytes 3..6 are the
little-endian bytes of `value` decodes to exactly `value`. -/
theorem read_decode (d : HidDevice) (address : Nat) (r : List Nat)
    (hsend : d.sendFeatureOk (registerFrame CmdNONE address 0) = true)
    (hresp : d.featureResponse (d.featureLog ++ [registerFrame CmdNONE address 0]) = some r)
    (hbytes : ∀ b ∈ r, b < 256) :
    (r.length < 7 → (Read d address).1 = .error (.shortRead r.length)) ∧
      (7 ≤ r.length → ∃ v, (Read d address).1 = .ok v ∧ v < 2 ^ 32 ∧
        putUint32 v = (r.take 7).drop 3) ∧
      (∀ value h0 h1 h2, value < 2 ^ 32 → r = [h0, h1, h2] ++ putUint32 value →
        (Read d address).1 = .ok value) := by
  have hout := read_outcome d address r hsend hresp
  refine ⟨?_, ?_, ?_⟩
  · intro h
    rw [hout, if_pos h]
  · intro h
    rw [hout, if_neg (by omega)]
    match r, h, hbytes with
    | h0 :: h1 :: h2 :: a :: b :: c :: e :: rest, _, hb =>
      have ha : a < 256 := hb a (by simp)
      have hb2 : b < 256 := hb b (by simp)
      have hc : c < 256 := hb c (by simp)
      have he : e < 256 := hb e (by simp)
      refine ⟨_, rfl, ?_, ?_⟩
      · simp only [List.take_succ_cons, List.take_zero, List.drop_succ_cons, List.drop_zero]
        rw [uint32LE_bytes a b c e ha hb2 hc he]
        omega
      · simp only [List.take_succ_cons, List.take_zero, List.drop_succ_cons, List.drop_zero]
        rw [uint32LE_bytes a b c e ha hb2 hc he]
        exact putUint32_bytes a b c e ha hb2 hc he
  · intro value h0 h1 h2 hv hr
    subst hr
    rw [hout, if_neg (by simp [putUint32])]
    have : (List.take 7 ([h0, h1, h2] ++ putUint32 value)).drop 3 = putUint32 value := by
      simp [putUint32]
    rw [this, uint32LE_putUint32 value hv]

/-- Witness for C2: a 6-byte response is a short read, a 7-byte response
carrying the bytes of "AIOC" decodes to 0x434F4941. -/
theorem read_decode_witness :
    (Read (idleDevice [0, 0, 0, 0x41, 0x49, 0x4F]) RegMAGIC).1 = .error (.shortRead 6) ∧
      (Read (idleDevice [7, 8, 9, 0x41, 0x49, 0x4F, 0x43]) RegMAGIC).1 = .ok 0x434F4941 :=
  ⟨(read_decode (idleDevice [0, 0, 0, 0x41, 0x49, 0x4F]) RegMAGIC [0, 0, 0, 0x41, 0x49, 0x4F]
      rfl rfl (by decide)).1 (by decide),
   (read_decode (idleDevice [7, 8, 9, 0x41, 0x49, 0x4F, 0x43]) RegMAGIC
      [7, 8, 9, 0x41, 0x49, 0x4F, 0x43] rfl rfl (by decide)).2.2 0x434F4941 7 8 9
      (by decide) (by decide)⟩

/-- Whatever the raw `Write` returns, `SetPTTState` has handed it the frame
of `pttFrame`, once, and has sent no feature report. -/
theorem setPTTState_logs (d : HidDevice) (channel : Int) (isOn : Bool) :
    (SetPTTState d channel isOn).map (fun r => r.2.outputLog) =
        (pttFrame channel isOn).map (fun data => d.outputLog ++ [data]) ∧
      (SetPTTState d channel isOn).map (fun r => r.2.featureLog) =
        (pttFrame channel isOn).map (fun _ => d.featureLog) := by
  unfold SetPTTState
  cases pttFrame channel isOn with
  | none => exact ⟨rfl, rfl⟩
  | some data =>
    simp only [HidDevice.Write]
    cases d.writeResult data with
    | none => exact ⟨rfl, rfl⟩
    | some n => by_cases hn : n = data.length <;> simp [hn]

/-- C3: for channel 1 and channel 2 and both values of `isOn`, `SetPTTState`
hands the raw `Write` exactly the 5 bytes `[0, 0, ioData, ioMask, 0]` with
`ioMask = 1 << (channel-1)` and `ioData = (isOn ? 1 : 0) << (channel-1)`, and
sends no feature report; channel 1 is mask 1 (bit 0), channel 2 is mask 2
(bit 1). -/
theorem setPTTState_frame (d : HidDevice) (channel : Int) (isOn : Bool)
    (hc : channel = 1 ∨ channel = 2) :
    (SetPTTState d channel isOn).map (fun r => r.2.outputLog) =
        some (d.outputLog ++ [[0, 0, (if isOn then 1 else 0) <<< (channel - 1).toNat,
          1 <<< (channel - 1).toNat, 0]]) ∧
      (SetPTTState d channel isOn).map (fun r => r.2.featureLog) = some d.featureLog ∧
      (channel = 1 → pttFrame channel isOn = some [0, 0, if isOn then 1 else 0, 1, 0]) ∧
      (channel = 2 → pttFrame channel isOn = some [0, 0, if isOn then 2 else 0, 2, 0]) := by
  rcases hc with rfl | rfl <;> cases isOn <;>
    exact ⟨(setPTTState_logs d _ _).1.trans rfl, (setPTTState_logs d _ _).2.trans rfl,
      by decide, by decide⟩

/-- Witness for C3 at channel 2, on. -/
theorem setPTTState_frame_witness :
    (SetPTTState (idleDevice []) 2 true).map (fun r => r.2.outputLog) = some [[0, 0, 2, 2, 0]] :=
  (setPTTState_frame (idleDevice []) 2 true (Or.inr rfl)).1

/-- C4, refuted as stated: `SetPTTState(2, false)` does not produce
`[0,0,0x00,0x08,0]`; it writes `[0,0,0x00,0x02,0]`. -/
theorem setPTTState_two_false_not_0x08 :
    ¬ ((SetPTTState (idleDevice []) 1 true).map (fun r => r.2.outputLog)
          = some [[0, 0, 0x01, 0x01, 0]] ∧
        (SetPTTState (idleDevice []) 2 false).map (fun r => r.2.outputLog)
          = some [[0, 0, 0x00, 0x08, 0]]) := by
  decide

/-- C4, amended: on every device `SetPTTState(1, true)` writes
`[0,0,0x01,0x01,0]` and `SetPTTState(2, false)` writes `[0,0,0x00,0x02,0]`;
the bytes `[0,0,0x00,0x08,0]` are what `SetPTTState(PTTChannel2, false)`
writes, `PTTChannel2` being 4, which is the call `main` makes for
`--set-ptt2-state off`. -/
theorem setPTTState_examples (d : HidDevice) :
    (SetPTTState d 1 true).map (fun r => r.2.outputLog)
        = some (d.outputLog ++ [[0, 0, 0x01, 0x01, 0]]) ∧
      (SetPTTState d 2 false).map (fun r => r.2.outputLog)
        = some (d.outputLog ++ [[0, 0, 0x00, 0x02, 0]]) ∧
      (SetPTTState d PTTChannel2 false).map (fun r => r.2.outputLog)
        = some (d.outputLog ++ [[0, 0, 0x00, 0x08, 0]]) ∧
      (mainSetPTT2State d "off").map (fun r => r.2.outputLog)
        = some (d.outputLog ++ [[0, 0, 0x00, 0x08, 0]]) := by
  have hoff : mainSetPTT2State d "off" = SetPTTState d PTTChannel2 false := by
    simp [mainSetPTT2State]
  rw [hoff]
  exact ⟨(setPTTState_logs d _ _).1.trans rfl, (setPTTState_logs d _ _).1.trans rfl,
    (setPTTState_logs d _ _).1.trans rfl, (setPTTState_logs d _ _).1.trans rfl⟩

/-! ### Foxhunt control word -/

theorem intBits_natCast (n : Nat) (h : n < 2 ^ 64) : intBits (n : Int) = n := by
  unfold intBits
  omega

theorem lor_fields (v w i : Nat) (hw : w < 2 ^ 8) (hi : i < 2 ^ 8) :
    (v <<< 16) ||| (w <<< 8) ||| i = v * 2 ^ 16 + w * 2 ^ 8 + i := by
  have hw8 : w <<< 8 = w * 2 ^ 8 := Nat.shiftLeft_eq w 8
  have h1 : (v <<< 16) ||| (w <<< 8) = w * 2 ^ 8 + v * 2 ^ 16 := by
    rw [Nat.lor_comm, hw8]
    exact lor_shiftLeft_eq_add (w * 2 ^ 8) v 16 (by omega)
  have h2 : w * 2 ^ 8 + v * 2 ^ 16 = (w + v * 2 ^ 8) <<< 8 := by
    rw [Nat.shiftLeft_eq]; omega
  rw [h1, h2, Nat.lor_comm, lor_shiftLeft_eq_add i _ 8 hi]
  omega

theorem packControl_inRange (volume wpm interval : Nat)
    (hv : volume ≤ 65535) (hw : wpm ≤ 255) (hi : interval ≤ 255) :
    packControl volume wpm interval = volume * 2 ^ 16 + wpm * 2 ^ 8 + interval := by
  unfold packControl
  rw [intBits_natCast volume (by omega), intBits_natCast wpm (by omega),
    intBits_natCast interval (by omega)]
  have h1 : (volume <<< 16) % 2 ^ 64 = volume <<< 16 := by
    rw [Nat.shiftLeft_eq]; omega
  have h2 : (wpm <<< 8) % 2 ^ 64 = wpm <<< 8 := by
    rw [Nat.shiftLeft_eq]; omega
  rw [h1, h2, lor_fields volume wpm interval (by omega) (by omega)]
  omega

theorem unpackControl_eq (value : Nat) :
    unpackControl value = (value / 2 ^ 16 % 2 ^ 16, value / 2 ^ 8 % 2 ^ 8, value % 2 ^ 8) := by
  unfold unpackControl
  rw [show (0xFFFF : Nat) = 2 ^ 16 - 1 from rfl, show (0xFF : Nat) = 2 ^ 8 - 1 from rfl,
    Nat.and_pow_two_sub_one_eq_mod, Nat.and_pow_two_sub_one_eq_mod,
    Nat.and_pow_two_sub_one_eq_mod, Nat.shiftRight_eq_div_pow, Nat.shiftRight_eq_div_pow]

/-- C8: for volume ≤ 65535, wpm ≤ 255 and interval ≤ 255 the word the
update packs is `(volume << 16) | (wpm << 8) | interval` truncated to 32
bits, it is the word the update step writes when all three are supplied, and
unpacking it (`(value >> 16) & 0xFFFF`, `(value >> 8) & 0xFF`,
`value & 0xFF`) returns the same triple. -/
theorem control_roundtrip (volume wpm interval : Nat)
    (hv : volume ≤ 65535) (hw : wpm ≤ 255) (hi : interval ≤ 255) :
    packControl volume wpm interval = ((volume <<< 16) ||| (wpm <<< 8) ||| interval) % 2 ^ 32 ∧
      unpackControl (packControl volume wpm interval) = (volume, wpm, interval) ∧
      ∀ currentFoxhunt, foxhuntControlUpdate currentFoxhunt volume wpm interval
        = some (packControl volume wpm interval) := by
  refine ⟨?_, ?_, ?_⟩
  · rw [packControl_inRange volume wpm interval hv hw hi]
    rw [lor_fields volume wpm interval (by omega) (by omega)]
    omega
  · rw [packControl_inRange volume wpm interval hv hw hi, unpackControl_eq]
    refine Prod.ext ?_ (Prod.ext ?_ ?_) <;> simp only <;> omega
  · intro currentFoxhunt
    have h1 : (volume : Int) ≠ -1 := by omega
    have h2 : (wpm : Int) ≠ -1 := by omega
    have h3 : (interval : Int) ≠ -1 := by omega
    simp [foxhuntControlUpdate, h1, h2, h3]

/-- Witness for C8 at volume 40000, wpm 20, interval 60. -/
theorem control_roundtrip_witness :
    unpackControl (packControl (40000 : Nat) (20 : Nat) (60 : Nat)) = (40000, 20, 60) :=
  (control_roundtrip 40000 20 60 (by decide) (by decide) (by decide)).2.1

/-! ### Foxhunt message -/

theorem messageBuffer_length (message : List Nat) : (messageBuffer message).length = 16 := by
  unfold messageBuffer
  by_cases h : message.length > 16
  · simp [h]
  · simp [h]; omega

theorem messageBuffer_bytes (message : List Nat) (hb : ∀ b ∈ message, b < 256) :
    ∀ b ∈ messageBuffer message, b < 256 := by
  intro b hmem
  unfold messageBuffer at hmem
  simp only [List.mem_append, List.mem_replicate] at hmem
  rcases hmem with h | ⟨-, rfl⟩
  · split at h
    · exact hb b (List.mem_of_mem_take h)
    · exact hb b h
  · decide

theorem messageRegisterValue_eq (buf : List Nat) (hb : ∀ b ∈ buf, b < 256) (i : Nat) :
    messageRegisterValue buf i =
      buf.getD (4 * i) 0 + buf.getD (4 * i + 1) 0 * 2 ^ 8 + buf.getD (4 * i + 2) 0 * 2 ^ 16 +
        buf.getD (4 * i + 3) 0 * 2 ^ 24 := by
  have hget : ∀ j, buf.getD j 0 < 256 := by
    intro j
    by_cases hj : j < buf.length
    · rw [List.getD_eq_getElem _ _ hj]; exact hb _ (List.getElem_mem hj)
    · rw [List.getD_eq_default _ _ (by omega)]; decide
  have h0 := hget (4 * i)
  have h1 := hget (4 * i + 1)
  have h2 := hget (4 * i + 2)
  have h3 := hget (4 * i + 3)
  unfold messageRegisterValue
  simp only [Nat.mul_comm i 4]
  generalize buf.getD (4 * i) 0 = a at *
  generalize buf.getD (4 * i + 1) 0 = b at *
  generalize buf.getD (4 * i + 2) 0 = c at *
  generalize buf.getD (4 * i + 3) 0 = e at *
  have e1 : (b <<< 8) % 2 ^ 32 = b <<< 8 := by rw [Nat.shiftLeft_eq]; omega
  have e2 : (c <<< 16) % 2 ^ 32 = c <<< 16 := by rw [Nat.shiftLeft_eq]; omega
  have e3 : (e <<< 24) % 2 ^ 32 = e <<< 24 := by rw [Nat.shiftLeft_eq]; omega
  rw [e1, e2, e3]
  have := uint32LE_bytes a b c e h0 h1 h2 h3
  simpa [uint32LE] using this

theorem regBytes_value (a b c e : Nat) (ha : a < 256) (hb : b < 256) (hc : c < 256)
    (he : e < 256) :
    regBytes (a + b * 2 ^ 8 + c * 2 ^ 16 + e * 2 ^ 24) = [a, b, c, e] :=
  putUint32_bytes a b c e ha hb hc he

theorem decode_registers_of_buffer (buf : List Nat) (hb : ∀ b ∈ buf, b < 256)
    (hlen : buf.length = 16) :
    ((List.range 4).map (messageRegisterValue buf)).foldl (fun acc val => acc ++ regBytes val) []
      = buf := by
  match buf, hlen, hb with
  | [b0, b1, b2, b3, b4, b5, b6, b7, b8, b9, b10, b11, b12, b13, b14, b15], _, hb =>
    have hall : ∀ b ∈ [b0, b1, b2, b3, b4, b5, b6, b7, b8, b9, b10, b11, b12, b13, b14, b15],
        b < 256 := hb
    simp only [List.mem_cons, List.mem_singleton, forall_eq_or_imp, forall_eq] at hb
    obtain ⟨h0, h1, h2, h3, h4, h5, h6, h7, h8, h9, h10, h11, h12, h13, h14, h15, -⟩ := hb
    have r0 := messageRegisterValue_eq _ hall 0
    have r1 := messageRegisterValue_eq _ hall 1
    have r2 := messageRegisterValue_eq _ hall 2
    have r3 := messageRegisterValue_eq _ hall 3
    simp only [List.getD_cons_zero, List.getD_cons_succ, Nat.mul_zero, Nat.mul_one,
      Nat.zero_add, Nat.reduceMul, Nat.reduceAdd] at r0 r1 r2 r3
    have hr : List.range 4 = [0, 1, 2, 3] := by decide
    simp only [hr, List.map_cons, List.map_nil, List.foldl_cons, List.foldl_nil, r0, r1, r2, r3,
      List.nil_append]
    rw [regBytes_value _ _ _ _ h0 h1 h2 h3, regBytes_value _ _ _ _ h4 h5 h6 h7,
      regBytes_value _ _ _ _ h8 h9 h10 h11, regBytes_value _ _ _ _ h12 h13 h14 h15]
    rfl

theorem nullIdx_append_nulls (s : List Nat) (k : Nat) (hs : ∀ b ∈ s, b ≠ 0) :
    (match nullIdx (s ++ List.replicate k 0) with
      | some idx => (s ++ List.replicate k 0).take idx
      | none => s ++ List.replicate k 0) = s := by
  induction s with
  | nil =>
    cases k with
    | zero => simp [nullIdx]
    | succ k => simp [nullIdx, List.replicate_succ, List.findIdx?_cons]
  | cons a s ih =>
    have ha : a ≠ 0 := hs a (by simp)
    have ih := ih (fun b hb => hs b (by simp [hb]))
    simp only [nullIdx, List.cons_append, List.findIdx?_cons, ha, decide_False] at ih ⊢
    cases h : List.findIdx? (fun b => decide (b = 0)) (s ++ List.replicate k 0) with
    | none => simp [h] at ih ⊢; exact ih
    | some idx => simp [h] at ih ⊢; exact ih

theorem foxhuntMessageWrites_eq (message : List Nat) (hne : message ≠ []) :
    foxhuntMessageWrites message = msgRegisters.zip (encodeMessage message) := by
  simp only [foxhuntMessageWrites, hne, ne_eq, not_false_eq_true, if_true, encodeMessage]
  have hr : List.range 4 = [0, 1, 2, 3] := by decide
  rw [hr]
  rfl

/-- C9: for every message of at most 16 bytes, none of them null, the four
values the foxhunt-message code computes for MSG0..MSG3 decode (16 bytes
reassembled in register order, little-endian within each register, cut at the
first null byte or kept whole when there is none) to exactly the original
bytes; and these four values are what the step writes to MSG0..MSG3 whenever
it runs, i.e. whenever the text is not empty. -/
theorem message_roundtrip (s : List Nat) (hlen : s.length ≤ 16)
    (hb : ∀ b ∈ s, 0 < b ∧ b < 256) :
    decodeMessage (encodeMessage s) = s ∧
      (encodeMessage s).length = 4 ∧
      (s ≠ [] → foxhuntMessageWrites s = msgRegisters.zip (encodeMessage s)) := by
  have hbuf : messageBuffer s = s ++ List.replicate (16 - s.length) 0 := by
    unfold messageBuffer
    rw [if_neg (by omega)]
  refine ⟨?_, by simp [encodeMessage], foxhuntMessageWrites_eq s⟩
  unfold decodeMessage encodeMessage
  simp only
  rw [decode_registers_of_buffer _ (messageBuffer_bytes s (fun b h => (hb b h).2))
    (messageBuffer_length s), hbuf]
  exact nullIdx_append_nulls s _ (fun b h => by have := (hb b h).1; omega)

/-- Witness for C9 on the bytes of "HELLO". -/
theorem message_roundtrip_witness :
    decodeMessage (encodeMessage [72, 69, 76, 76, 79]) = [72, 69, 76, 76, 79] :=
  (message_roundtrip [72, 69, 76, 76, 79] (by decide) (by decide)).1

/-- The feature reports `mainFoxhuntMessage` sends are the write frames of
its register writes, in order. -/
theorem write_log (d : HidDevice) (address value : Nat) :
    (Write d address value).2.featureLog
      = d.featureLog ++ [registerFrame CmdWRITESTROBE address value] := by
  cases h : d.sendFeatureOk (registerFrame CmdWRITESTROBE address value) <;>
    simp [Write, HidDevice.SendFeatureReport, h]

theorem foldl_write_log (ws : List (Nat × Nat)) (d : HidDevice) :
    (ws.foldl (fun dev w => (Write dev w.1 w.2).2) d).featureLog
      = d.featureLog ++ ws.map (fun w => registerFrame CmdWRITESTROBE w.1 w.2) := by
  induction ws generalizing d with
  | nil => simp
  | cons w ws ih => simp [List.foldl_cons, ih, write_log]

/-- C10, refuted as stated: for the empty text no register value is
produced and nothing is sent to the device. -/
theorem foxhuntMessage_empty_writes_nothing :
    foxhuntMessageWrites [] = [] ∧ (foxhuntMessageWrites []).length ≠ 4 ∧
      (mainFoxhuntMessage (idleDevice []) []).featureLog = [] := by
  decide

/-- C10, amended to non-empty text: the text is cut to its first 16 bytes
and right-padded with null bytes to exactly 16 bytes `b`; exactly four
writes are issued, to MSG0..MSG3 in that order, the value for register `i`
being `b[4i] | b[4i+1] << 8 | b[4i+2] << 16 | b[4i+3] << 24`; the device
receives the four corresponding write frames; and the bytes beyond the 16th
do not affect the writes. -/
theorem foxhuntMessage_writes (d : HidDevice) (message : List Nat)
    (hne : message ≠ []) (hb : ∀ b ∈ message, b < 256) :
    messageBuffer message
        = message.take 16 ++ List.replicate (16 - (message.take 16).length) 0 ∧
      (messageBuffer message).length = 16 ∧
      foxhuntMessageWrites message
        = (List.range 4).map (fun i =>
            ([0xA2, 0xA3, 0xA4, 0xA5].getD i 0,
              (messageBuffer message).getD (4 * i) 0 |||
                ((messageBuffer message).getD (4 * i + 1) 0 <<< 8) |||
                ((messageBuffer message).getD (4 * i + 2) 0 <<< 16) |||
                ((messageBuffer message).getD (4 * i + 3) 0 <<< 24))) ∧
      (foxhuntMessageWrites message).length = 4 ∧
      (mainFoxhuntMessage d message).featureLog
        = d.featureLog ++ (foxhuntMessageWrites message).map
            (fun w => registerFrame CmdWRITESTROBE w.1 w.2) ∧
      foxhuntMessageWrites message = foxhuntMessageWrites (message.take 16) := by
  have hbuf : messageBuffer message
      = message.take 16 ++ List.replicate (16 - (message.take 16).length) 0 := by
    unfold messageBuffer
    by_cases h : message.length > 16
    · rw [if_pos h]
    · rw [if_neg h, List.take_of_length_le (by omega)]
  have htake : messageBuffer (message.take 16) = messageBuffer message := by
    rw [hbuf]
    unfold messageBuffer
    rw [if_neg (by simp)]
  have hne16 : message.take 16 ≠ [] := by
    cases message with
    | nil => exact absurd rfl hne
    | cons a t => simp
  have hval : ∀ i, messageRegisterValue (messageBuffer message) i
      = (messageBuffer message).getD (4 * i) 0 |||
          ((messageBuffer message).getD (4 * i + 1) 0 <<< 8) |||
          ((messageBuffer message).getD (4 * i + 2) 0 <<< 16) |||
          ((messageBuffer message).getD (4 * i + 3) 0 <<< 24) := by
    intro i
    have hbb := messageBuffer_bytes message hb
    have hget : ∀ j, (messageBuffer message).getD j 0 < 256 := by
      intro j
      by_cases hj : j < (messageBuffer message).length
      · rw [List.getD_eq_getElem _ _ hj]; exact hbb _ (List.getElem_mem hj)
      · rw [List.getD_eq_default _ _ (by omega)]; decide
    rw [messageRegisterValue_eq _ hbb i]
    exact (lor_bytes _ _ _ _ (hget (4 * i)) (hget (4 * i + 1)) (hget (4 * i + 2))).symm
  refine ⟨hbuf, messageBuffer_length message, ?_, ?_, ?_, ?_⟩
  · simp only [foxhuntMessageWrites, hne, ne_eq, not_false_eq_true, if_true, hval]
    rfl
  · simp [foxhuntMessageWrites, hne]
  · exact foldl_write_log _ d
  · simp only [foxhuntMessageWrites, hne, hne16, ne_eq, not_false_eq_true, if_true, htake]

/-- Witness for C10 on a 17-byte text: the 17th byte is ignored. -/
theorem foxhuntMessage_writes_witness :
    foxhuntMessageWrites [65, 66, 67, 68, 69, 70, 71, 72, 73, 74, 75, 76, 77, 78, 79, 80, 81]
      = foxhuntMessageWrites [65, 66, 67, 68, 69, 70, 71, 72, 73, 74, 75, 76, 77, 78, 79, 80] :=
  (foxhuntMessage_writes (idleDevice [])
    [65, 66, 67, 68, 69, 70, 71, 72, 73, 74, 75, 76, 77, 78, 79, 80, 81]
    (by decide) (by decide)).2.2.2.2.2

/-! ### Flag parsing -/

theorem lookupFlag_cons (n : String) (b : Nat) (vocab : List (String × Nat)) (q : String) :
    lookupFlag ((n, b) :: vocab) q = if q = n then some b else lookupFlag vocab q := by
  unfold lookupFlag
  by_cases h : q = n <;> simp [List.find?, h]

theorem lookupFlag_nil (q : String) : lookupFlag [] q = none := rfl

theorem ptt_lookup (q : String) : lookupFlag pttVocabulary q =
    if q = "NONE" then some PTTSourceNONE
    else if q = "CM108GPIO1" then some PTTSourceCM108GPIO1
    else if q = "CM108GPIO2" then some PTTSourceCM108GPIO2
    else if q = "CM108GPIO3" then some PTTSourceCM108GPIO3
    else if q = "CM108GPIO4" then some PTTSourceCM108GPIO4
    else if q = "SERIALDTR" then some PTTSourceSERIALDTR
    else if q = "SERIALRTS" then some PTTSourceSERIALRTS
    else if q = "SERIALDTRNRTS" then some PTTSourceSERIALDTRNRTS
    else if q = "SERIALNDTRRTS" then some PTTSourceSERIALNDTRRTS
    else if q = "VPTT" then some PTTSourceVPTT
    else none := by
  simp only [pttVocabulary, lookupFlag_cons, lookupFlag_nil]
  rfl

theorem parsePTTSourceLoop_cons (p : String) (parts : List String) (result : Nat) :
    parsePTTSourceLoop (p :: parts) result =
      match lookupFlag pttVocabulary (TrimSpace p) with
      | some bit => parsePTTSourceLoop parts (result ||| bit)
      | none => .error (.unknownPTTSource (TrimSpace p)) := by
  rw [parsePTTSourceLoop, ptt_lookup]
  generalize TrimSpace p = q
  by_cases h1 : q = "NONE"
  · rw [if_pos h1, if_pos h1]
  rw [if_neg h1, if_neg h1]
  by_cases h2 : q = "CM108GPIO1"
  · rw [if_pos h2, if_pos h2]
  rw [if_neg h2, if_neg h2]
  by_cases h3 : q = "CM108GPIO2"
  · rw [if_pos h3, if_pos h3]
  rw [if_neg h3, if_neg h3]
  by_cases h4 : q = "CM108GPIO3"
  · rw [if_pos h4, if_pos h4]
  rw [if_neg h4, if_neg h4]
  by_cases h5 : q = "CM108GPIO4"
  · rw [if_pos h5, if_pos h5]
  rw [if_neg h5, if_neg h5]
  by_cases h6 : q = "SERIALDTR"
  · rw [if_pos h6, if_pos h6]
  rw [if_neg h6, if_neg h6]
  by_cases h7 : q = "SERIALRTS"
  · rw [if_pos h7, if_pos h7]
  rw [if_neg h7, if_neg h7]
  by_cases h8 : q = "SERIALDTRNRTS"
  · rw [if_pos h8, if_pos h8]
  rw [if_neg h8, if_neg h8]
  by_cases h9 : q = "SERIALNDTRRTS"
  · rw [if_pos h9, if_pos h9]
  rw [if_neg h9, if_neg h9]
  by_cases h10 : q = "VPTT"
  · rw [if_pos h10, if_pos h10]
  rw [if_neg h10, if_neg h10]

theorem cm108_lookup (q : String) : lookupFlag cm108Vocabulary q =
    if q = "NONE" then some CM108ButtonSourceNONE
    else if q = "IN1" then some CM108ButtonSourceIN1
    else if q = "IN2" then some CM108ButtonSourceIN2
    else if q = "VCOS" then some CM108ButtonSourceVCOS
    else none := by
  simp only [cm108Vocabulary, lookupFlag_cons, lookupFlag_nil]
  rfl

theorem parseCM108ButtonSourceLoop_cons (p : String) (parts : List String) (result : Nat) :
    parseCM108ButtonSourceLoop (p :: parts) result =
      match lookupFlag cm108Vocabulary (TrimSpace p) with
      | some bit => parseCM108ButtonSourceLoop parts (result ||| bit)
      | none => .error (.unknownButtonSource (TrimSpace p)) := by
  rw [parseCM108ButtonSourceLoop, cm108_lookup]
  generalize TrimSpace p = q
  by_cases h1 : q = "NONE"
  · rw [if_pos h1, if_pos h1]
  rw [if_neg h1, if_neg h1]
  by_cases h2 : q = "IN1"
  · rw [if_pos h2, if_pos h2]
  rw [if_neg h2, if_neg h2]
  by_cases h3 : q = "IN2"
  · rw [if_pos h3, if_pos h3]
  rw [if_neg h3, if_neg h3]
  by_cases h4 : q = "VCOS"
  · rw [if_pos h4, if_pos h4]
  rw [if_neg h4, if_neg h4]

/-- The loop of a flag parser, for any parser whose step is a vocabulary
lookup: the first token that is not a name, or the OR of all bits. -/
theorem loop_eq_spec (vocab : List (String × Nat)) (mkErr : String → AIOCError)
    (loop : List String → Nat → Except AIOCError Nat)
    (hnil : ∀ result, loop [] result = .ok result)
    (hcons : ∀ p parts result, loop (p :: parts) result =
      match lookupFlag vocab (TrimSpace p) with
      | some bit => loop parts (result ||| bit)
      | none => .error (mkErr (TrimSpace p)))
    (parts : List String) (result : Nat) :
    loop parts result =
      match (parts.map TrimSpace).find? (fun t => (lookupFlag vocab t).isNone) with
      | some t => .error (mkErr t)
      | none => .ok ((parts.map TrimSpace).foldl
          (fun mask t => mask ||| (lookupFlag vocab t).getD 0) result) := by
  induction parts generalizing result with
  | nil => simp [hnil]
  | cons p parts ih =>
    rw [hcons]
    cases h : lookupFlag vocab (TrimSpace p) with
    | none => simp [List.find?, h]
    | some bit => simp [List.find?, h, ih]

theorem parsePTTSource_eq_spec (text : String) :
    parsePTTSource text
      = (parseFlagsSpec pttVocabulary text).mapError AIOCError.unknownPTTSource := by
  unfold parsePTTSource parseFlagsSpec
  by_cases h : text = ""
  · simp [h, Except.mapError]
  · simp only [h, if_false]
    rw [loop_eq_spec pttVocabulary AIOCError.unknownPTTSource parsePTTSourceLoop
      (fun _ => by rw [parsePTTSourceLoop]) parsePTTSourceLoop_cons]
    cases ((Split text).map TrimSpace).find? (fun t => (lookupFlag pttVocabulary t).isNone) <;>
      rfl

theorem parseCM108ButtonSource_eq_spec (text : String) :
    parseCM108ButtonSource text
      = (parseFlagsSpec cm108Vocabulary text).mapError AIOCError.unknownButtonSource := by
  unfold parseCM108ButtonSource parseFlagsSpec
  by_cases h : text = ""
  · simp [h, Except.mapError]
  · simp only [h, if_false]
    rw [loop_eq_spec cm108Vocabulary AIOCError.unknownButtonSource parseCM108ButtonSourceLoop
      (fun _ => by rw [parseCM108ButtonSourceLoop]) parseCM108ButtonSourceLoop_cons]
    cases ((Split text).map TrimSpace).find? (fun t => (lookupFlag cm108Vocabulary t).isNone) <;>
      rfl

/-- A text is rejected by the specification parser exactly when it is not
empty and has a token that, trimmed, is not a vocabulary name. -/
theorem parseFlagsSpec_error_iff (vocab : List (String × Nat)) (text : String) :
    (∃ t, parseFlagsSpec vocab text = .error t) ↔
      text ≠ "" ∧ ∃ p ∈ Split text, lookupFlag vocab (TrimSpace p) = none := by
  unfold parseFlagsSpec
  by_cases h : text = ""
  · simp [h]
  · simp only [h, if_false, ne_eq, not_false_eq_true, true_and]
    cases hf : ((Split text).map TrimSpace).find? (fun t => (lookupFlag vocab t).isNone) with
    | none =>
      simp only [reduceCtorEq, exists_false, false_iff, not_exists, not_and]
      intro p hp hnone
      have := List.find?_eq_none.1 hf (TrimSpace p) (List.mem_map_of_mem _ hp)
      simp [hnone] at this
    | some t =>
      simp only [Except.error.injEq, exists_eq', true_iff]
      have hmem := List.mem_of_find?_eq_some hf
      have hprop := List.find?_some hf
      obtain ⟨p, hp, rfl⟩ := List.mem_map.1 hmem
      exact ⟨p, hp, by simpa using hprop⟩

theorem parse_error_iff_of_spec (vocab : List (String × Nat)) (mkErr : String → AIOCError)
    (r : Except AIOCError Nat) (text : String)
    (h : r = (parseFlagsSpec vocab text).mapError mkErr) :
    (∃ e, r = .error e) ↔
      text ≠ "" ∧ ∃ p ∈ Split text, lookupFlag vocab (TrimSpace p) = none := by
  rw [← parseFlagsSpec_error_iff, h]
  cases parseFlagsSpec vocab text with
  | error t => simp [Except.mapError]
  | ok m => simp [Except.mapError]

/-- C5: both flag parsers return the zero mask for the empty text and agree
with the specification parser on every text: the text is split on the bar,
every token is trimmed and looked up case-sensitively, the result is the OR of
the bits when every token is a vocabulary name and otherwise the error naming
the first trimmed token that is not. Parsing therefore fails exactly when the
non-empty text has a token that, trimmed, is not a vocabulary name; an empty
token and a name in the wrong case are such tokens. -/
theorem parse_flags (text : String) :
    parsePTTSource "" = .ok 0 ∧ parseCM108ButtonSource "" = .ok 0 ∧
      parsePTTSource text
        = (parseFlagsSpec pttVocabulary text).mapError AIOCError.unknownPTTSource ∧
      parseCM108ButtonSource text
        = (parseFlagsSpec cm108Vocabulary text).mapError AIOCError.unknownButtonSource ∧
      ((∃ e, parsePTTSource text = .error e) ↔
        text ≠ "" ∧ ∃ p ∈ Split text, lookupFlag pttVocabulary (TrimSpace p) = none) ∧
      ((∃ e, parseCM108ButtonSource text = .error e) ↔
        text ≠ "" ∧ ∃ p ∈ Split text, lookupFlag cm108Vocabulary (TrimSpace p) = none) ∧
      parsePTTSource "VPTT|" = .error (.unknownPTTSource "") ∧
      parsePTTSource " VPTT | vptt | x" = .error (.unknownPTTSource "vptt") ∧
      parseCM108ButtonSource "IN1 |In2" = .error (.unknownButtonSource "In2") :=
  ⟨rfl, rfl, parsePTTSource_eq_spec text, parseCM108ButtonSource_eq_spec text,
    parse_error_iff_of_spec _ _ _ text (parsePTTSource_eq_spec text),
    parse_error_iff_of_spec _ _ _ text (parseCM108ButtonSource_eq_spec text),
    by decide, by decide, by decide⟩

/-! ### Flag formatting -/

theorem ite_append_singleton {α : Type} (c : Prop) [Decidable c] (l : List α) (x : α) :
    (if c then l ++ [x] else l) = l ++ (if c then [x] else []) := by
  by_cases h : c <;> simp [h]

theorem namesOf_cons (e : String × Nat) (vocab : List (String × Nat)) (mask : Nat) :
    ((e :: vocab).filter (fun e => mask &&& e.2 ≠ 0)).map Prod.fst
      = (if mask &&& e.2 ≠ 0 then [e.1] else []) ++
          (vocab.filter (fun e => mask &&& e.2 ≠ 0)).map Prod.fst := by
  by_cases h : mask &&& e.2 = 0 <;> simp [List.filter_cons, h]

theorem pttSourceString_eq (src : Nat) :
    pttSourceString src =
      if src = 0 then "NONE"
      else if (pttVocabulary.filter (fun e => src &&& e.2 ≠ 0)).map Prod.fst = []
        then sprintfHex08 src
      else formatFlagsSpec pttVocabulary src := by
  have hparts : (pttVocabulary.filter (fun e => src &&& e.2 ≠ 0)).map Prod.fst =
      (if src &&& 0x00000001 ≠ 0 then ["CM108GPIO1"] else []) ++
      ((if src &&& 0x00000002 ≠ 0 then ["CM108GPIO2"] else []) ++
      ((if src &&& 0x00000004 ≠ 0 then ["CM108GPIO3"] else []) ++
      ((if src &&& 0x00000008 ≠ 0 then ["CM108GPIO4"] else []) ++
      ((if src &&& 0x00000100 ≠ 0 then ["SERIALDTR"] else []) ++
      ((if src &&& 0x00000200 ≠ 0 then ["SERIALRTS"] else []) ++
      ((if src &&& 0x00000400 ≠ 0 then ["SERIALDTRNRTS"] else []) ++
      ((if src &&& 0x00000800 ≠ 0 then ["SERIALNDTRRTS"] else []) ++
      (if src &&& 0x00001000 ≠ 0 then ["VPTT"] else [])))))))) := by
    simp only [pttVocabulary, namesOf_cons, Nat.and_zero, ne_eq, not_true_eq_false, if_false,
      List.nil_append, List.filter_nil, List.map_nil, List.append_nil]
  unfold pttSourceString formatFlagsSpec
  simp only [PTTSourceNONE, PTTSourceCM108GPIO1, PTTSourceCM108GPIO2, PTTSourceCM108GPIO3,
    PTTSourceCM108GPIO4, PTTSourceSERIALDTR, PTTSourceSERIALRTS, PTTSourceSERIALDTRNRTS,
    PTTSourceSERIALNDTRRTS, PTTSourceVPTT, ite_append_singleton, List.nil_append]
  simp only [List.append_assoc, List.length_eq_zero, hparts]

theorem cm108ButtonSourceString_eq (src : Nat) :
    cm108ButtonSourceString src =
      if src = 0 then "NONE"
      else if (cm108Vocabulary.filter (fun e => src &&& e.2 ≠ 0)).map Prod.fst = []
        then sprintfHex08 src
      else formatFlagsSpec cm108Vocabulary src := by
  have hparts : (cm108Vocabulary.filter (fun e => src &&& e.2 ≠ 0)).map Prod.fst =
      (if src &&& 0x00010000 ≠ 0 then ["IN1"] else []) ++
      ((if src &&& 0x00020000 ≠ 0 then ["IN2"] else []) ++
      (if src &&& 0x01000000 ≠ 0 then ["VCOS"] else [])) := by
    simp only [cm108Vocabulary, namesOf_cons, Nat.and_zero, ne_eq, not_true_eq_false, if_false,
      List.nil_append, List.filter_nil, List.map_nil, List.append_nil]
  unfold cm108ButtonSourceString formatFlagsSpec
  simp only [CM108ButtonSourceNONE, CM108ButtonSourceIN1, CM108ButtonSourceIN2,
    CM108ButtonSourceVCOS, ite_append_singleton, List.nil_append]
  simp only [List.append_assoc, List.length_eq_zero, hparts]

theorem names_ne_nil (vocab : List (String × Nat)) (mask : Nat)
    (h : ∃ e ∈ vocab, mask &&& e.2 ≠ 0) :
    (vocab.filter (fun e => mask &&& e.2 ≠ 0)).map Prod.fst ≠ [] := by
  obtain ⟨e, he, hbit⟩ := h
  intro hnil
  have hmem : e.1 ∈ (vocab.filter (fun e => mask &&& e.2 ≠ 0)).map Prod.fst :=
    List.mem_map_of_mem _ (List.mem_filter.2 ⟨he, by simpa using hbit⟩)
  rw [hnil] at hmem
  exact absurd hmem (List.not_mem_nil _)

theorem mask_ne_zero (vocab : List (String × Nat)) (mask : Nat)
    (h : ∃ e ∈ vocab, mask &&& e.2 ≠ 0) : mask ≠ 0 := by
  obtain ⟨e, -, hbit⟩ := h
  intro h0
  rw [h0, Nat.zero_and] at hbit
  exact hbit rfl

theorem formatFlagsSpec_congr (vocab : List (String × Nat)) (src other : Nat)
    (h : ∀ e ∈ vocab, other &&& e.2 = src &&& e.2) :
    formatFlagsSpec vocab other = formatFlagsSpec vocab src := by
  unfold formatFlagsSpec
  congr 2
  apply List.filter_congr
  intro e he
  rw [h e he]

/-- C6: both formatters return "NONE" for the zero mask; for every mask
with at least one declared flag bit set they return the names of the declared
flags whose bit is set, in declaration order, joined with the bar, and nothing
for the undeclared bits; `pttSourceString(0x1 | 0x100)` is
"CM108GPIO1|SERIALDTR"; and a mask that agrees with such a mask on every
declared bit renders to the same text. -/
theorem format_flags (src other : Nat) :
    pttSourceString 0 = "NONE" ∧ cm108ButtonSourceString 0 = "NONE" ∧
      ((∃ e ∈ pttVocabulary, src &&& e.2 ≠ 0) →
        pttSourceString src = formatFlagsSpec pttVocabulary src) ∧
      ((∃ e ∈ cm108Vocabulary, src &&& e.2 ≠ 0) →
        cm108ButtonSourceString src = formatFlagsSpec cm108Vocabulary src) ∧
      pttSourceString (0x00000001 ||| 0x00000100) = "CM108GPIO1|SERIALDTR" ∧
      ((∃ e ∈ pttVocabulary, src &&& e.2 ≠ 0) →
        (∀ e ∈ pttVocabulary, other &&& e.2 = src &&& e.2) →
        pttSourceString other = pttSourceString src) ∧
      ((∃ e ∈ cm108Vocabulary, src &&& e.2 ≠ 0) →
        (∀ e ∈ cm108Vocabulary, other &&& e.2 = src &&& e.2) →
        cm108ButtonSourceString other = cm108ButtonSourceString src) := by
  have hptt : ∀ m, (∃ e ∈ pttVocabulary, m &&& e.2 ≠ 0) →
      pttSourceString m = formatFlagsSpec pttVocabulary m := by
    intro m h
    rw [pttSourceString_eq, if_neg (mask_ne_zero _ _ h), if_neg (names_ne_nil _ _ h)]
  have hcm : ∀ m, (∃ e ∈ cm108Vocabulary, m &&& e.2 ≠ 0) →
      cm108ButtonSourceString m = formatFlagsSpec cm108Vocabulary m := by
    intro m h
    rw [cm108ButtonSourceString_eq, if_neg (mask_ne_zero _ _ h), if_neg (names_ne_nil _ _ h)]
  refine ⟨by decide, by decide, hptt src, hcm src, by decide, ?_, ?_⟩
  · intro h hagree
    have h2 : ∃ e ∈ pttVocabulary, other &&& e.2 ≠ 0 := by
      obtain ⟨e, he, hbit⟩ := h
      exact ⟨e, he, by rw [hagree e he]; exact hbit⟩
    rw [hptt src h, hptt other h2, formatFlagsSpec_congr _ _ _ hagree]
  · intro h hagree
    have h2 : ∃ e ∈ cm108Vocabulary, other &&& e.2 ≠ 0 := by
      obtain ⟨e, he, hbit⟩ := h
      exact ⟨e, he, by rw [hagree e he]; exact hbit⟩
    rw [hcm src h, hcm other h2, formatFlagsSpec_congr _ _ _ hagree]

/-- Witness for C6: the mask 0x2101 has the undeclared bit 0x2000 set and
renders as the mask 0x101 does. -/
theorem format_flags_witness :
    pttSourceString 0x2101 = "CM108GPIO1|SERIALDTR" ∧
      pttSourceString 0x2101 = pttSourceString 0x101 :=
  ⟨((format_flags 0x2101 0).2.2.1 ⟨("CM108GPIO1", 0x00000001), by decide, by decide⟩).trans
      (by decide),
    (format_flags 0x101 0x2101).2.2.2.2.2.1 ⟨("CM108GPIO1", 0x00000001), by decide, by decide⟩
      (by decide)⟩

/-! ### Round trip through parser and formatter -/

theorem lor_eq_zero (a b : Nat) : a ||| b = 0 ↔ a = 0 ∧ b = 0 := by
  constructor
  · intro h
    have hbit : ∀ i, (a.testBit i || b.testBit i) = false := by
      intro i
      rw [← Nat.testBit_or, h, Nat.zero_testBit]
    constructor
    · apply Nat.eq_of_testBit_eq
      intro i
      have := hbit i
      rw [Nat.zero_testBit]
      cases h1 : a.testBit i <;> simp [h1] at this ⊢
    · apply Nat.eq_of_testBit_eq
      intro i
      have := hbit i
      rw [Nat.zero_testBit]
      cases h1 : b.testBit i <;> simp [h1] at this ⊢
  · rintro ⟨rfl, rfl⟩
    rfl

theorem lor_and_ne_zero (a b c : Nat) : (a ||| b) &&& c ≠ 0 ↔ a &&& c ≠ 0 ∨ b &&& c ≠ 0 := by
  rw [Nat.and_comm, Nat.and_or_distrib_left, Nat.and_comm c a, Nat.and_comm c b, ne_eq,
    lor_eq_zero]
  tauto

theorem foldl_lor_and_ne_zero (f : String → Nat) (names : List String) (acc c : Nat) :
    (names.foldl (fun mask t => mask ||| f t) acc) &&& c ≠ 0 ↔
      acc &&& c ≠ 0 ∨ ∃ n ∈ names, f n &&& c ≠ 0 := by
  induction names generalizing acc with
  | nil => simp
  | cons n names ih =>
    rw [List.foldl_cons, ih, lor_and_ne_zero]
    simp only [List.mem_cons, exists_eq_or_imp]
    tauto

theorem foldl_lor_eq_zero (f : String → Nat) (names : List String) (acc : Nat) :
    names.foldl (fun mask t => mask ||| f t) acc = 0 ↔ acc = 0 ∧ ∀ n ∈ names, f n = 0 := by
  induction names generalizing acc with
  | nil => simp
  | cons n names ih =>
    rw [List.foldl_cons, ih, lor_eq_zero]
    simp only [List.mem_cons, forall_eq_or_imp]
    tauto

theorem splitChars_of_not_mem (sep : Char) (l : List Char) (h : sep ∉ l) :
    splitChars sep l = [l] := by
  induction l with
  | nil => rfl
  | cons c cs ih =>
    have hc : c ≠ sep := fun hc => h (by simp [hc])
    have hcs : sep ∉ cs := fun hm => h (List.mem_cons_of_mem _ hm)
    rw [splitChars, if_neg hc, ih hcs]

theorem splitChars_append_sep (sep : Char) (l rest : List Char) (h : sep ∉ l) :
    splitChars sep (l ++ sep :: rest) = l :: splitChars sep rest := by
  induction l with
  | nil => simp [splitChars]
  | cons c cs ih =>
    have hc : c ≠ sep := fun hc => h (by simp [hc])
    have hcs : sep ∉ cs := fun hm => h (List.mem_cons_of_mem _ hm)
    rw [List.cons_append, splitChars, if_neg hc, ih hcs]

theorem splitChars_intercalate (sep : Char) (ls : List (List Char)) (hne : ls ≠ [])
    (h : ∀ l ∈ ls, sep ∉ l) :
    splitChars sep (List.intercalate [sep] ls) = ls := by
  induction ls with
  | nil => exact absurd rfl hne
  | cons l rest ih =>
    cases rest with
    | nil =>
      have heq : List.intercalate [sep] [l] = l := by
        simp [List.intercalate, List.intersperse]
      rw [heq]
      exact splitChars_of_not_mem sep l (h l (by simp))
    | cons l2 rest2 =>
      have hrec := ih (by simp) (fun x hx => h x (List.mem_cons_of_mem _ hx))
      have heq : List.intercalate [sep] (l :: l2 :: rest2)
          = l ++ sep :: List.intercalate [sep] (l2 :: rest2) := by
        simp [List.intercalate, List.intersperse]
      rw [heq, splitChars_append_sep sep l _ (h l (by simp)), hrec]

theorem split_join (names : List String) (hne : names ≠ [])
    (h : ∀ n ∈ names, '|' ∉ n.data) : Split (Join names) = names := by
  unfold Split Join
  simp only
  rw [splitChars_intercalate '|' (names.map String.data) (by simpa using hne)
    (by
      intro l hl
      obtain ⟨n, hn, rfl⟩ := List.mem_map.1 hl
      exact h n hn)]
  rw [List.map_map]
  have : (String.mk ∘ String.data) = id := by
    funext s
    rfl
  rw [this, List.map_id]
theorem canonicalForm_idem (vocab : List (String × Nat)) (names : List String) :
    canonicalForm vocab ((vocab.filter (fun e => e.2 ≠ 0 ∧ e.1 ∈ names)).map Prod.fst)
      = canonicalForm vocab names := by
  have hfilter : vocab.filter (fun e => e.2 ≠ 0 ∧
        e.1 ∈ (vocab.filter (fun e => e.2 ≠ 0 ∧ e.1 ∈ names)).map Prod.fst)
      = vocab.filter (fun e => e.2 ≠ 0 ∧ e.1 ∈ names) := by
    apply List.filter_congr
    intro e he
    have hiff : (e.2 ≠ 0 ∧ e.1 ∈ (vocab.filter (fun e => e.2 ≠ 0 ∧ e.1 ∈ names)).map Prod.fst)
        ↔ (e.2 ≠ 0 ∧ e.1 ∈ names) := by
      constructor
      · rintro ⟨h0, hmem⟩
        obtain ⟨e2, he2, heq⟩ := List.mem_map.1 hmem
        have hp := (List.mem_filter.1 he2).2
        simp only [decide_eq_true_eq] at hp
        exact ⟨h0, heq ▸ hp.2⟩
      · rintro ⟨h0, hmem⟩
        exact ⟨h0, List.mem_map.2 ⟨e, List.mem_filter.2 ⟨he, by simpa using ⟨h0, hmem⟩⟩, rfl⟩⟩
    exact decide_eq_decide.2 hiff
  unfold canonicalForm
  simp only [hfilter]

/-- Parsing the bar-joined text of a list of vocabulary names and formatting
the mask gives the canonical form of the list; stated once for any parser and
formatter that follow a vocabulary whose names are trimmed, non-empty and
bar-free and whose non-zero bits are pairwise disjoint. -/
theorem roundtrip_generic (vocab : List (String × Nat)) (mkErr : String → AIOCError)
    (parse : String → Except AIOCError Nat) (fmt : Nat → String)
    (hparse : ∀ t, parse t = (parseFlagsSpec vocab t).mapError mkErr)
    (hfmt : ∀ m, fmt m =
      if m = 0 then "NONE"
      else if (vocab.filter (fun e => m &&& e.2 ≠ 0)).map Prod.fst = [] then sprintfHex08 m
      else formatFlagsSpec vocab m)
    (h1 : ∀ e ∈ vocab, '|' ∉ e.1.data ∧ TrimSpace e.1 = e.1 ∧ e.1 ≠ "" ∧
      lookupFlag vocab e.1 = some e.2)
    (h2 : ∀ e ∈ vocab, ∀ e2 ∈ vocab, (e2.2 &&& e.2 ≠ 0 ↔ e.2 ≠ 0 ∧ e2.1 = e.1))
    (names : List String) (hnames : ∀ n ∈ names, n ∈ vocab.map Prod.fst) :
    ∃ m, parse (Join names) = .ok m ∧ fmt m = canonicalForm vocab names := by
  have hentry : ∀ n ∈ names, ∃ e ∈ vocab, e.1 = n := by
    intro n hn
    obtain ⟨e, he, heq⟩ := List.mem_map.1 (hnames n hn)
    exact ⟨e, he, heq⟩
  by_cases hnil : names = []
  · subst hnil
    refine ⟨0, ?_, ?_⟩
    · rw [hparse]
      rfl
    · rw [hfmt, if_pos rfl]
      simp [canonicalForm]
  · have hsplit : Split (Join names) = names :=
      split_join names hnil (fun n hn => by
        obtain ⟨e, he, rfl⟩ := hentry n hn
        exact (h1 e he).1)
    have hne : Join names ≠ "" := by
      intro h
      have hs : Split (Join names) = [""] := by rw [h]; rfl
      rw [hsplit] at hs
      obtain ⟨e, he, heq⟩ := hentry "" (by rw [hs]; simp)
      exact (h1 e he).2.2.1 heq
    have htrim : names.map TrimSpace = names := by
      conv_rhs => rw [← List.map_id names]
      apply List.map_congr_left
      intro n hn
      obtain ⟨e, he, rfl⟩ := hentry n hn
      exact (h1 e he).2.1
    have hfind : names.find? (fun t => (lookupFlag vocab t).isNone) = none := by
      apply List.find?_eq_none.2
      intro n hn
      obtain ⟨e, he, rfl⟩ := hentry n hn
      simp [(h1 e he).2.2.2]
    refine ⟨names.foldl (fun mask t => mask ||| (lookupFlag vocab t).getD 0) 0, ?_, ?_⟩
    · rw [hparse]
      unfold parseFlagsSpec
      simp only [hne, if_false, hsplit, htrim, hfind]
      rfl
    · generalize hm : names.foldl (fun mask t => mask ||| (lookupFlag vocab t).getD 0) 0 = mask
      have hbit : ∀ e ∈ vocab, (mask &&& e.2 ≠ 0 ↔ (e.2 ≠ 0 ∧ e.1 ∈ names)) := by
        intro e he
        rw [← hm, foldl_lor_and_ne_zero]
        constructor
        · rintro (h0 | ⟨n, hn, hb⟩)
          · simp at h0
          · obtain ⟨e2, he2, rfl⟩ := hentry n hn
            rw [(h1 e2 he2).2.2.2] at hb
            have := (h2 e he e2 he2).1 hb
            exact ⟨this.1, this.2 ▸ hn⟩
        · rintro ⟨h0, hmem⟩
          right
          refine ⟨e.1, hmem, ?_⟩
          rw [(h1 e he).2.2.2]
          exact (h2 e he e he).2 ⟨h0, rfl⟩
      have hfilter : vocab.filter (fun e => mask &&& e.2 ≠ 0)
          = vocab.filter (fun e => e.2 ≠ 0 ∧ e.1 ∈ names) := by
        apply List.filter_congr
        intro e he
        exact decide_eq_decide.2 (hbit e he)
      have hzero : mask = 0 ↔
          (vocab.filter (fun e => e.2 ≠ 0 ∧ e.1 ∈ names)).map Prod.fst = [] := by
        constructor
        · intro h0
          rw [← hfilter, h0]
          simp
        · intro hempty
          by_contra hmask
          rw [← hm, foldl_lor_eq_zero] at hmask
          simp only [true_and, not_forall] at hmask
          obtain ⟨n, hn, hb⟩ := hmask
          obtain ⟨e, he, rfl⟩ := hentry n hn
          rw [(h1 e he).2.2.2] at hb
          have hmem : e.1 ∈ (vocab.filter (fun e => e.2 ≠ 0 ∧ e.1 ∈ names)).map Prod.fst :=
            List.mem_map.2 ⟨e, List.mem_filter.2 ⟨he, by simpa using ⟨hb, hn⟩⟩, rfl⟩
          rw [hempty] at hmem
          exact absurd hmem (List.not_mem_nil _)
      rw [hfmt]
      unfold canonicalForm formatFlagsSpec
      simp only [hfilter]
      by_cases hz : mask = 0
      · rw [if_pos hz, if_pos (hzero.1 hz)]
      · rw [if_neg hz, if_neg (fun h => hz (hzero.2 h)), if_neg (fun h => hz (hzero.2 h))]

theorem ptt_vocabulary_names :
    ∀ e ∈ pttVocabulary, '|' ∉ e.1.data ∧ TrimSpace e.1 = e.1 ∧ e.1 ≠ "" ∧
      lookupFlag pttVocabulary e.1 = some e.2 := by
  decide

theorem ptt_vocabulary_bits :
    ∀ e ∈ pttVocabulary, ∀ e2 ∈ pttVocabulary, (e2.2 &&& e.2 ≠ 0 ↔ e.2 ≠ 0 ∧ e2.1 = e.1) := by
  decide

theorem cm108_vocabulary_names :
    ∀ e ∈ cm108Vocabulary, '|' ∉ e.1.data ∧ TrimSpace e.1 = e.1 ∧ e.1 ≠ "" ∧
      lookupFlag cm108Vocabulary e.1 = some e.2 := by
  decide

theorem cm108_vocabulary_bits :
    ∀ e ∈ cm108Vocabulary, ∀ e2 ∈ cm108Vocabulary,
      (e2.2 &&& e.2 ≠ 0 ↔ e.2 ≠ 0 ∧ e2.1 = e.1) := by
  decide

theorem mem_names_of_canonical (vocab : List (String × Nat)) (names : List String) :
    ∀ n ∈ (vocab.filter (fun e => e.2 ≠ 0 ∧ e.1 ∈ names)).map Prod.fst,
      n ∈ vocab.map Prod.fst := by
  intro n hn
  obtain ⟨e, he, rfl⟩ := List.mem_map.1 hn
  exact List.mem_map_of_mem _ (List.mem_filter.1 he).1

/-- C7, refuted as stated: for the text "NONE|CM108GPIO1", built from
declared names only, the formatted parse is "CM108GPIO1", whereas the
distinct names occurring in the text, in declaration order, are
"NONE|CM108GPIO1". -/
theorem roundtrip_drops_none :
    parsePTTSource (Join ["NONE", "CM108GPIO1"]) = .ok 1 ∧
      pttSourceString 1 = "CM108GPIO1" ∧
      canonicalFormAllNames pttVocabulary ["NONE", "CM108GPIO1"] = "NONE|CM108GPIO1" ∧
      pttSourceString 1 ≠ canonicalFormAllNames pttVocabulary ["NONE", "CM108GPIO1"] := by
  decide

/-- C7, amended: for every list of declared vocabulary names, parsing the
names joined with the bar succeeds and formatting the mask gives the
canonical form: the names of the flags with a non-zero bit that occur in the
list, each once, in declaration order, joined with the bar, or "NONE" when
there is none; and the canonical form is a fixed point of parsing followed by
formatting. Both for the PTT-source and for the button-source codec. -/
theorem roundtrip_canonical (names : List String) :
    ((∀ n ∈ names, n ∈ pttVocabulary.map Prod.fst) →
      (∃ m, parsePTTSource (Join names) = .ok m ∧
        pttSourceString m = canonicalForm pttVocabulary names) ∧
      (∃ m, parsePTTSource (canonicalForm pttVocabulary names) = .ok m ∧
        pttSourceString m = canonicalForm pttVocabulary names)) ∧
    ((∀ n ∈ names, n ∈ cm108Vocabulary.map Prod.fst) →
      (∃ m, parseCM108ButtonSource (Join names) = .ok m ∧
        cm108ButtonSourceString m = canonicalForm cm108Vocabulary names) ∧
      (∃ m, parseCM108ButtonSource (canonicalForm cm108Vocabulary names) = .ok m ∧
        cm108ButtonSourceString m = canonicalForm cm108Vocabulary names)) := by
  have hptt := roundtrip_generic pttVocabulary AIOCError.unknownPTTSource parsePTTSource
    pttSourceString parsePTTSource_eq_spec pttSourceString_eq ptt_vocabulary_names
    ptt_vocabulary_bits
  have hcm := roundtrip_generic cm108Vocabulary AIOCError.unknownButtonSource
    parseCM108ButtonSource cm108ButtonSourceString parseCM108ButtonSource_eq_spec
    cm108ButtonSourceString_eq cm108_vocabulary_names cm108_vocabulary_bits
  refine ⟨fun hn => ⟨hptt names hn, ?_⟩, fun hn => ⟨hcm names hn, ?_⟩⟩
  · by_cases hp : (pttVocabulary.filter (fun e => e.2 ≠ 0 ∧ e.1 ∈ names)).map Prod.fst = []
    · have hc : canonicalForm pttVocabulary names = "NONE" := by
        unfold canonicalForm
        simp only [hp, if_true]
      rw [hc]
      exact ⟨0, by decide, by decide⟩
    · have hc : canonicalForm pttVocabulary names
          = Join ((pttVocabulary.filter (fun e => e.2 ≠ 0 ∧ e.1 ∈ names)).map Prod.fst) := by
        unfold canonicalForm
        simp only [hp, if_false]
      obtain ⟨m, hm1, hm2⟩ := hptt _ (mem_names_of_canonical pttVocabulary names)
      rw [canonicalForm_idem] at hm2
      exact ⟨m, hc ▸ hm1, hm2⟩
  · by_cases hp : (cm108Vocabulary.filter (fun e => e.2 ≠ 0 ∧ e.1 ∈ names)).map Prod.fst = []
    · have hc : canonicalForm cm108Vocabulary names = "NONE" := by
        unfold canonicalForm
        simp only [hp, if_true]
      rw [hc]
      exact ⟨0, by decide, by decide⟩
    · have hc : canonicalForm cm108Vocabulary names
          = Join ((cm108Vocabulary.filter (fun e => e.2 ≠ 0 ∧ e.1 ∈ names)).map Prod.fst) := by
        unfold canonicalForm
        simp only [hp, if_false]
      obtain ⟨m, hm1, hm2⟩ := hcm _ (mem_names_of_canonical cm108Vocabulary names)
      rw [canonicalForm_idem] at hm2
      exact ⟨m, hc ▸ hm1, hm2⟩

/-- Witness for C7 on the names VPTT, CM108GPIO1, VPTT. -/
theorem roundtrip_canonical_witness :
    ∃ m, parsePTTSource (Join ["VPTT", "CM108GPIO1", "VPTT"]) = .ok m ∧
      pttSourceString m = "CM108GPIO1|VPTT" :=
  match ((roundtrip_canonical ["VPTT", "CM108GPIO1", "VPTT"]).1 (by decide)).1 with
  | ⟨m, h1, h2⟩ => ⟨m, h1, h2.trans (by decide)⟩

/-! ### Device session -/

theorem uint32LE_lt (b : List Nat) : uint32LE b < 2 ^ 32 :=
  Nat.mod_lt _ (by decide)

/-- A value `Read` returns is a `uint32`, and `Read` never closes the
handle. -/
theorem read_ok_lt (d d1 : HidDevice) (address v : Nat)
    (h : Read d address = (.ok v, d1)) : v < 2 ^ 32 ∧ d1.closed = d.closed := by
  unfold Read HidDevice.SendFeatureReport at h
  cases hs : d.sendFeatureOk (registerFrame CmdNONE address 0) with
  | false => simp [hs] at h
  | true =>
    simp only [hs, if_true] at h
    unfold HidDevice.GetFeatureReport at h
    simp only at h
    cases hr : d.featureResponse (d.featureLog ++ [registerFrame CmdNONE address 0]) with
    | none => simp [hr] at h
    | some r =>
      simp only [hr] at h
      split at h
      · simp at h
      · simp only [Prod.mk.injEq, Except.ok.injEq] at h
        obtain ⟨hv, hd⟩ := h
        subst hv
        subst hd
        exact ⟨uint32LE_lt _, rfl⟩

theorem read_error_closed (d d1 : HidDevice) (address : Nat) (e : AIOCError)
    (h : Read d address = (.error e, d1)) : d1.closed = d.closed := by
  unfold Read HidDevice.SendFeatureReport at h
  cases hs : d.sendFeatureOk (registerFrame CmdNONE address 0) with
  | false =>
    simp only [hs] at h
    simp only [Bool.false_eq_true, if_false, Prod.mk.injEq] at h
    rw [← h.2]
  | true =>
    simp only [hs, if_true] at h
    unfold HidDevice.GetFeatureReport at h
    simp only at h
    cases hr : d.featureResponse (d.featureLog ++ [registerFrame CmdNONE address 0]) with
    | none =>
      simp only [hr, Prod.mk.injEq] at h
      rw [← h.2]
    | some r =>
      simp only [hr] at h
      split at h
      · simp only [Prod.mk.injEq] at h
        rw [← h.2]
      · simp at h

theorem magic_bytes_iff (magic : Nat) (h : magic < 2 ^ 32) :
    putUint32 magic = magicAIOC ↔ magic = 0x434F4941 := by
  constructor
  · intro hb
    have := uint32LE_putUint32 magic h
    rw [hb] at this
    rw [← this]
    decide
  · intro hm
    subst hm
    decide

/-- C11: once `hid.OpenFirst` has yielded a handle: if the MAGIC register
(address 0) is read successfully, `Open` returns a session exactly when the
four little-endian bytes of the value are the ASCII bytes of "AIOC", that is
when the value is 0x434F4941, and the session then holds the still-open
handle; for any other value `Open` returns the unexpected-magic error, no
session, and the handle has been closed; when the read of MAGIC fails,
`Open` returns the read-magic error and the handle has been closed too. -/
theorem open_handshake (openFirst : Nat → Nat → Option HidDevice) (vid pid : Nat)
    (device : HidDevice) (hopen : openFirst vid pid = some device) :
    RegMAGIC = 0x00 ∧ magicAIOC = [0x41, 0x49, 0x4F, 0x43] ∧
      (∀ magic d1, Read device RegMAGIC = (.ok magic, d1) →
        ((∃ session, (Open openFirst vid pid).1 = .ok session) ↔ putUint32 magic = magicAIOC) ∧
        (putUint32 magic = magicAIOC ↔ magic = 0x434F4941) ∧
        (magic = 0x434F4941 →
          Open openFirst vid pid = (.ok d1, some d1) ∧ d1.closed = device.closed) ∧
        (magic ≠ 0x434F4941 →
          Open openFirst vid pid
            = (.error (.unexpectedMagic (putUint32 magic)), some d1.Close) ∧
          d1.Close.closed = true)) ∧
      (∀ err d1, Read device RegMAGIC = (.error err, d1) →
        Open openFirst vid pid = (.error (.readMagic err), some d1.Close) ∧
        d1.Close.closed = true) := by
  refine ⟨rfl, by decide, ?_, ?_⟩
  · intro magic d1 hread
    have hlt := read_ok_lt device d1 RegMAGIC magic hread
    have hiff := magic_bytes_iff magic hlt.1
    have hopenEq : Open openFirst vid pid =
        if putUint32 magic ≠ magicAIOC then
          (.error (.unexpectedMagic (putUint32 magic)), some d1.Close)
        else (.ok d1, some d1) := by
      unfold Open
      simp only [hopen, hread]
    refine ⟨?_, hiff, ?_, ?_⟩
    · rw [hopenEq]
      by_cases hb : putUint32 magic = magicAIOC
      · simp [hb]
      · simp [hb]
    · intro hm
      rw [hopenEq, if_neg (by simpa using hiff.2 hm)]
      exact ⟨rfl, hlt.2⟩
    · intro hm
      rw [hopenEq, if_pos (fun hb => hm (hiff.1 hb))]
      exact ⟨rfl, rfl⟩
  · intro err d1 hread
    refine ⟨?_, rfl⟩
    unfold Open
    simp only [hopen, hread]

/-- Witness for C11: a device whose MAGIC register reads "AIOD" is refused
and its handle is closed. -/
theorem open_handshake_witness :
    (Open (fun _ _ => some (idleDevice [0, 0, 0, 0x41, 0x49, 0x4F, 0x44])) 0x1209 0x7388).1
        = .error (.unexpectedMagic [0x41, 0x49, 0x4F, 0x44]) ∧
      (Open (fun _ _ => some (idleDevice [0, 0, 0, 0x41, 0x49, 0x4F, 0x44])) 0x1209 0x7388).2.map
        (fun d => d.closed) = some true := by
  have h := ((open_handshake (fun _ _ => some (idleDevice [0, 0, 0, 0x41, 0x49, 0x4F, 0x44]))
    0x1209 0x7388 (idleDevice [0, 0, 0, 0x41, 0x49, 0x4F, 0x44]) rfl).2.2.1 0x444F4941
    (Read (idleDevice [0, 0, 0, 0x41, 0x49, 0x4F, 0x44]) RegMAGIC).2 rfl).2.2.2 (by decide)
  rw [h.1]
  exact ⟨rfl, rfl⟩

/-- C12, evaluated on the code: with an AIOC attached, the run
`--ptt1 CM108GPIO1 --ptt2 BOGUS` reports the unknown token only after the
device was opened, the MAGIC read request was sent and the PTT1 register
AIOC_IOMUX0 was written; the run `--ptt1 BOGUS` reports it after the device was
opened and the MAGIC read request was sent; the run
`--vol-up IN1 --vol-dn x` after CM108_IOMUX0 was written. -/
theorem main_rejects_flag_after_io :
    (mainFlagRun (fun _ _ => some (idleDevice [0, 0, 0, 0x41, 0x49, 0x4F, 0x43]))
        "CM108GPIO1" "BOGUS" "" "").1 = some (.parsePTT2 (.unknownPTTSource "BOGUS")) ∧
      (mainFlagRun (fun _ _ => some (idleDevice [0, 0, 0, 0x41, 0x49, 0x4F, 0x43]))
        "CM108GPIO1" "BOGUS" "" "").2.map (fun d => d.featureLog)
          = some [[0, 0x00, 0x00, 0, 0, 0, 0, 0], [0, 0x01, 0x24, 0x01, 0, 0, 0, 0]] ∧
      (mainFlagRun (fun _ _ => some (idleDevice [0, 0, 0, 0x41, 0x49, 0x4F, 0x43]))
        "BOGUS" "" "" "").1 = some (.parsePTT1 (.unknownPTTSource "BOGUS")) ∧
      (mainFlagRun (fun _ _ => some (idleDevice [0, 0, 0, 0x41, 0x49, 0x4F, 0x43]))
        "BOGUS" "" "" "").2.map (fun d => d.featureLog)
          = some [[0, 0x00, 0x00, 0, 0, 0, 0, 0]] ∧
      (mainFlagRun (fun _ _ => some (idleDevice [0, 0, 0, 0x41, 0x49, 0x4F, 0x43]))
        "" "" "IN1" "x").1 = some (.parseVolDn (.unknownButtonSource "x")) ∧
      (mainFlagRun (fun _ _ => some (idleDevice [0, 0, 0, 0x41, 0x49, 0x4F, 0x43]))
        "" "" "IN1" "x").2.map (fun d => d.featureLog)
          = some [[0, 0x00, 0x00, 0, 0, 0, 0, 0], [0, 0x01, 0x44, 0, 0, 0x01, 0, 0]] := by
  decide

/-- C13, evaluated on the code: the update packs the requested values
unchecked. With FOXHUNT_CTRL reading 0x12345678 (volume 0x1234, wpm 0x56,
interval 0x78), `--foxhunt-wpm 70000` writes 0x13357078: the wpm field is
0x70 and the volume field, which was not requested, becomes 0x1335.
`--foxhunt-volume 65536` on a zero register writes 0, and `--foxhunt-wpm -2`
on a zero register writes 0xFFFFFE00. -/
theorem foxhunt_update_out_of_range :
    unpackControl 0x12345678 = (0x1234, 0x56, 0x78) ∧
      foxhuntControlUpdate 0x12345678 (-1) 70000 (-1) = some 0x13357078 ∧
      unpackControl 0x13357078 = (0x1335, 0x70, 0x78) ∧
      foxhuntControlUpdate 0 65536 (-1) (-1) = some 0 ∧
      foxhuntControlUpdate 0 (-1) (-2) (-1) = some 0xFFFFFE00 := by
  decide


/-! ### Foxhunt control update -/

theorem unpackControl_lt (cur : Nat) :
    (unpackControl cur).1 < 2 ^ 16 ∧ (unpackControl cur).2.1 < 2 ^ 8 ∧
      (unpackControl cur).2.2 < 2 ^ 8 := by
  rw [unpackControl_eq]
  refine ⟨Nat.mod_lt _ (by decide), Nat.mod_lt _ (by decide), Nat.mod_lt _ (by decide)⟩

/-- The update in terms of in-range natural numbers: the word written packs
the chosen triple. -/
theorem foxhuntControlUpdate_some (cur : Nat) (v w i : Int)
    (hsup : ¬ (v = -1 ∧ w = -1 ∧ i = -1))
    (hv : v = -1 ∨ (0 ≤ v ∧ v ≤ 65535)) (hw : w = -1 ∨ (0 ≤ w ∧ w ≤ 255))
    (hi : i = -1 ∨ (0 ≤ i ∧ i ≤ 255)) :
    foxhuntControlUpdate cur v w i =
      some ((if v = -1 then (unpackControl cur).1 else v.toNat) * 2 ^ 16 +
        (if w = -1 then (unpackControl cur).2.1 else w.toNat) * 2 ^ 8 +
        (if i = -1 then (unpackControl cur).2.2 else i.toNat)) := by
  obtain ⟨hcv, hcw, hci⟩ := unpackControl_lt cur
  have hguard : v ≠ -1 ∨ w ≠ -1 ∨ i ≠ -1 := by
    by_contra hcon
    simp only [not_or, ne_eq, not_not] at hcon
    exact hsup hcon
  have hnv : ∀ (x : Int) (c n : Nat), (x = -1 ∨ (0 ≤ x ∧ x ≤ (n : Int))) → c ≤ n →
      (if x ≠ -1 then x else (c : Int)) = ((if x = -1 then c else x.toNat : Nat) : Int) ∧
      (if x = -1 then c else x.toNat) ≤ n := by
    intro x c n hx hc
    by_cases h : x = -1
    · simp [h, hc]
    · rcases hx with hx | hx
      · exact absurd hx h
      · simp only [h, ne_eq, not_false_eq_true, if_true, if_false]
        constructor <;> omega
  unfold foxhuntControlUpdate
  rw [if_pos hguard]
  simp only
  have e1 := hnv v (unpackControl cur).1 65535 hv (by omega)
  have e2 := hnv w (unpackControl cur).2.1 255 hw (by omega)
  have e3 := hnv i (unpackControl cur).2.2 255 hi (by omega)
  have u1 : (cur >>> 16) &&& 0xFFFF = (unpackControl cur).1 := rfl
  have u2 : (cur >>> 8) &&& 0xFF = (unpackControl cur).2.1 := rfl
  have u3 : cur &&& 0xFF = (unpackControl cur).2.2 := rfl
  rw [u1, u2, u3, e1.1, e2.1, e3.1, packControl_inRange _ _ _ e1.2 e2.2 e3.2]

/-- C16: for every current FOXHUNT_CTRL value and every choice of supplied
settings (a setting of -1 is "not supplied", a supplied one lies in its
range): when nothing is supplied nothing is written; otherwise exactly one
word is computed for writing, each supplied field of it equals the supplied
value and each field not supplied equals that field of the current value. -/
theorem foxhunt_update_frame (cur : Nat) (v w i : Int)
    (hv : v = -1 ∨ (0 ≤ v ∧ v ≤ 65535)) (hw : w = -1 ∨ (0 ≤ w ∧ w ≤ 255))
    (hi : i = -1 ∨ (0 ≤ i ∧ i ≤ 255)) :
    ((v = -1 ∧ w = -1 ∧ i = -1) → foxhuntControlUpdate cur v w i = none) ∧
      (¬ (v = -1 ∧ w = -1 ∧ i = -1) →
        ∃ value, foxhuntControlUpdate cur v w i = some value ∧ value < 2 ^ 32 ∧
          (v ≠ -1 → ((unpackControl value).1 : Int) = v) ∧
          (v = -1 → (unpackControl value).1 = (unpackControl cur).1) ∧
          (w ≠ -1 → ((unpackControl value).2.1 : Int) = w) ∧
          (w = -1 → (unpackControl value).2.1 = (unpackControl cur).2.1) ∧
          (i ≠ -1 → ((unpackControl value).2.2 : Int) = i) ∧
          (i = -1 → (unpackControl value).2.2 = (unpackControl cur).2.2)) := by
  constructor
  · rintro ⟨rfl, rfl, rfl⟩
    simp [foxhuntControlUpdate]
  · intro hsup
    obtain ⟨hcv, hcw, hci⟩ := unpackControl_lt cur
    refine ⟨_, foxhuntControlUpdate_some cur v w i hsup hv hw hi, ?_⟩
    generalize (unpackControl cur).1 = cv at *
    generalize (unpackControl cur).2.1 = cw at *
    generalize (unpackControl cur).2.2 = ci at *
    have ha : (if v = -1 then cv else v.toNat) < 2 ^ 16 ∧
        (v ≠ -1 → ((if v = -1 then cv else v.toNat : Nat) : Int) = v) ∧
        (v = -1 → (if v = -1 then cv else v.toNat) = cv) := by
      by_cases h : v = -1
      · simp [h]; omega
      · rcases hv with hv | hv
        · exact absurd hv h
        · simp only [h, if_false, ne_eq, not_false_eq_true, true_implies, false_implies,
            and_true]
          constructor <;> omega
    have hb : (if w = -1 then cw else w.toNat) < 2 ^ 8 ∧
        (w ≠ -1 → ((if w = -1 then cw else w.toNat : Nat) : Int) = w) ∧
        (w = -1 → (if w = -1 then cw else w.toNat) = cw) := by
      by_cases h : w = -1
      · simp [h]; omega
      · rcases hw with hw | hw
        · exact absurd hw h
        · simp only [h, if_false, ne_eq, not_false_eq_true, true_implies, false_implies,
            and_true]
          constructor <;> omega
    have hc : (if i = -1 then ci else i.toNat) < 2 ^ 8 ∧
        (i ≠ -1 → ((if i = -1 then ci else i.toNat : Nat) : Int) = i) ∧
        (i = -1 → (if i = -1 then ci else i.toNat) = ci) := by
      by_cases h : i = -1
      · simp [h]; omega
      · rcases hi with hi | hi
        · exact absurd hi h
        · simp only [h, if_false, ne_eq, not_false_eq_true, true_implies, false_implies,
            and_true]
          constructor <;> omega
    generalize (if v = -1 then cv else v.toNat) = a at *
    generalize (if w = -1 then cw else w.toNat) = b at *
    generalize (if i = -1 then ci else i.toNat) = c at *
    have hu : unpackControl (a * 2 ^ 16 + b * 2 ^ 8 + c) = (a, b, c) := by
      rw [unpackControl_eq]
      refine Prod.ext ?_ (Prod.ext ?_ ?_) <;> simp only <;> omega
    rw [hu]
    exact ⟨by omega, ha.2.1, ha.2.2, hb.2.1, hb.2.2, hc.2.1, hc.2.2⟩

/-- Witness for C16: only the wpm is supplied; volume and interval keep the
values of the current register 0x12345678. -/
theorem foxhunt_update_frame_witness :
    ∃ value, foxhuntControlUpdate 0x12345678 (-1) 20 (-1) = some value ∧
      (unpackControl value).1 = 0x1234 ∧ ((unpackControl value).2.1 : Int) = 20 ∧
      (unpackControl value).2.2 = 0x78 :=
  match (foxhunt_update_frame 0x12345678 (-1) 20 (-1) (Or.inl rfl) (Or.inr (by decide))
    (Or.inl rfl)).2 (by decide) with
  | ⟨value, h, _, _, hvol, hwpm, _, _, hint⟩ =>
    ⟨value, h, (hvol rfl).trans (by decide), hwpm (by decide), (hint rfl).trans (by decide)⟩


/-! ### Hexadecimal fallback of the formatters -/

theorem hexDigit_props : ∀ n < 16, hexDigitValue (hexDigit n) = some n ∧
    hexDigit n ≠ '|' ∧ isSpace (hexDigit n) = false := by
  decide

theorem sprintfHex08_data (v : Nat) :
    (sprintfHex08 v).data = ['0', 'x', hexDigit (v / 2 ^ 28 % 16), hexDigit (v / 2 ^ 24 % 16),
      hexDigit (v / 2 ^ 20 % 16), hexDigit (v / 2 ^ 16 % 16), hexDigit (v / 2 ^ 12 % 16),
      hexDigit (v / 2 ^ 8 % 16), hexDigit (v / 2 ^ 4 % 16), hexDigit (v % 16)] := by
  have hr : List.range 8 = [0, 1, 2, 3, 4, 5, 6, 7] := by decide
  simp [sprintfHex08, hr, Nat.shiftRight_eq_div_pow]

theorem hexValue_sprintfHex08 (v : Nat) (hv : v < 2 ^ 32) :
    hexValue ((sprintfHex08 v).data.drop 2) 0 = some v := by
  rw [sprintfHex08_data]
  simp only [List.drop_succ_cons, List.drop_zero, hexValue,
    (hexDigit_props _ (Nat.mod_lt _ (by decide : 0 < 16))).1]
  congr 1
  omega

theorem join_cons_data (n : String) (rest : List String) :
    ∃ tail, (Join (n :: rest)).data = n.data ++ tail := by
  cases rest with
  | nil => exact ⟨[], by simp [Join, List.intercalate, List.intersperse]⟩
  | cons r rs =>
    exact ⟨'|' :: (Join (r :: rs)).data, by simp [Join, List.intercalate, List.intersperse]⟩

theorem join_head (n : String) (rest : List String) (hn : n.data ≠ []) :
    (Join (n :: rest)).data.head? = n.data.head? := by
  obtain ⟨tail, ht⟩ := join_cons_data n rest
  rw [ht]
  cases hd : n.data with
  | nil => exact absurd hd hn
  | cons c cs => rfl

/-- A formatter that follows a vocabulary none of whose names starts with
the digit 0 returns the hexadecimal text exactly for the non-zero masks with
every declared bit clear. -/
theorem fallback_iff (vocab : List (String × Nat)) (fmt : Nat → String)
    (hfmt : ∀ m, fmt m =
      if m = 0 then "NONE"
      else if (vocab.filter (fun e => m &&& e.2 ≠ 0)).map Prod.fst = [] then sprintfHex08 m
      else formatFlagsSpec vocab m)
    (hhead : ∀ e ∈ vocab, e.1.data ≠ [] ∧ e.1.data.head? ≠ some '0') (mask : Nat) :
    fmt mask = sprintfHex08 mask ↔ (mask ≠ 0 ∧ ∀ e ∈ vocab, mask &&& e.2 = 0) := by
  have hhex : (sprintfHex08 mask).data.head? = some '0' := by
    rw [sprintfHex08_data]; rfl
  rw [hfmt]
  by_cases h0 : mask = 0
  · rw [if_pos h0]
    constructor
    · intro h
      have := congrArg (fun s => s.data.head?) h
      simp only [hhex] at this
      exact absurd this (by decide)
    · intro h
      exact absurd h0 h.1
  · rw [if_neg h0]
    by_cases hnil : (vocab.filter (fun e => mask &&& e.2 ≠ 0)).map Prod.fst = []
    · rw [if_pos hnil]
      simp only [true_iff]
      refine ⟨h0, ?_⟩
      intro e he
      by_contra hbit
      exact names_ne_nil vocab mask ⟨e, he, hbit⟩ hnil
    · rw [if_neg hnil]
      constructor
      · intro h
        exfalso
        unfold formatFlagsSpec at h
        cases hl : (vocab.filter (fun e => mask &&& e.2 ≠ 0)).map Prod.fst with
        | nil => exact hnil hl
        | cons n rest =>
          have hmem : n ∈ (vocab.filter (fun e => mask &&& e.2 ≠ 0)).map Prod.fst := by
            rw [hl]; simp
          obtain ⟨e, he, rfl⟩ := List.mem_map.1 hmem
          have hev := hhead e (List.mem_filter.1 he).1
          rw [hl] at h
          have := congrArg (fun s => s.data.head?) h
          simp only [hhex, join_head _ _ hev.1] at this
          exact hev.2 this
      · rintro ⟨-, hall⟩
        exfalso
        apply hnil
        have : vocab.filter (fun e => mask &&& e.2 ≠ 0) = [] := by
          apply List.filter_eq_nil_iff.2
          intro e he
          simp [hall e he]
        rw [this]
        rfl

theorem ptt_vocabulary_heads :
    ∀ e ∈ pttVocabulary, e.1.data ≠ [] ∧ e.1.data.head? ≠ some '0' := by
  decide

theorem cm108_vocabulary_heads :
    ∀ e ∈ cm108Vocabulary, e.1.data ≠ [] ∧ e.1.data.head? ≠ some '0' := by
  decide

/-- C14: for every `uint32` mask, `pttSourceString` and
`cm108ButtonSourceString` return the hexadecimal fallback exactly when the
mask is non-zero and every declared flag bit is clear in it; the fallback
text is the hex literal of the mask: the characters `0x` followed by exactly
eight lowercase hexadecimal digits whose value is the mask. -/
theorem hex_fallback (mask : Nat) (hm : mask < 2 ^ 32) :
    (pttSourceString mask = sprintfHex08 mask ↔
        (mask ≠ 0 ∧ ∀ e ∈ pttVocabulary, mask &&& e.2 = 0)) ∧
      (cm108ButtonSourceString mask = sprintfHex08 mask ↔
        (mask ≠ 0 ∧ ∀ e ∈ cm108Vocabulary, mask &&& e.2 = 0)) ∧
      (sprintfHex08 mask).data.take 2 = ['0', 'x'] ∧
      ((sprintfHex08 mask).data.drop 2).length = 8 ∧
      hexValue ((sprintfHex08 mask).data.drop 2) 0 = some mask :=
  ⟨fallback_iff pttVocabulary pttSourceString pttSourceString_eq ptt_vocabulary_heads mask,
    fallback_iff cm108Vocabulary cm108ButtonSourceString cm108ButtonSourceString_eq
      cm108_vocabulary_heads mask,
    by rw [sprintfHex08_data]; rfl, by rw [sprintfHex08_data]; rfl,
    hexValue_sprintfHex08 mask hm⟩

/-- Witness for C14: the mask 0x2000 has no declared PTT flag bit and
renders as "0x00002000". -/
theorem hex_fallback_witness :
    pttSourceString 0x2000 = "0x00002000" ∧ hexValue "00002000".data 0 = some 0x2000 :=
  ⟨((hex_fallback 0x2000 (by decide)).1.2 ⟨by decide, by decide⟩).trans (by decide),
    (hex_fallback 0x2000 (by decide)).2.2.2.2⟩


/-! ### Parsing the formatted text -/

theorem foldl_lor_nat_and_ne_zero (chosen : List Nat) (acc c : Nat) :
    (chosen.foldl (fun mask b => mask ||| b) acc) &&& c ≠ 0 ↔
      acc &&& c ≠ 0 ∨ ∃ b ∈ chosen, b &&& c ≠ 0 := by
  induction chosen generalizing acc with
  | nil => simp
  | cons b chosen ih =>
    rw [List.foldl_cons, ih, lor_and_ne_zero]
    simp only [List.mem_cons, exists_eq_or_imp]
    tauto

theorem foldl_lor_nat_testBit (chosen : List Nat) (acc i : Nat) :
    (chosen.foldl (fun mask b => mask ||| b) acc).testBit i = true ↔
      acc.testBit i = true ∨ ∃ b ∈ chosen, b.testBit i = true := by
  induction chosen generalizing acc with
  | nil => simp
  | cons b chosen ih =>
    rw [List.foldl_cons, ih, Nat.testBit_or, Bool.or_eq_true]
    simp only [List.mem_cons, exists_eq_or_imp]
    tauto

theorem foldl_lor_names_testBit (f : String → Nat) (names : List String) (acc i : Nat) :
    (names.foldl (fun mask t => mask ||| f t) acc).testBit i = true ↔
      acc.testBit i = true ∨ ∃ n ∈ names, (f n).testBit i = true := by
  induction names generalizing acc with
  | nil => simp
  | cons n names ih =>
    rw [List.foldl_cons, ih, Nat.testBit_or, Bool.or_eq_true]
    simp only [List.mem_cons, exists_eq_or_imp]
    tauto

/-- The specification parser on the bar-joined text of a non-empty list of
vocabulary names: the OR of their bits. -/
theorem parseFlagsSpec_join (vocab : List (String × Nat))
    (h1 : ∀ e ∈ vocab, '|' ∉ e.1.data ∧ TrimSpace e.1 = e.1 ∧ e.1 ≠ "" ∧
      lookupFlag vocab e.1 = some e.2)
    (names : List String) (hnil : names ≠ [])
    (hentry : ∀ n ∈ names, ∃ e ∈ vocab, e.1 = n) :
    parseFlagsSpec vocab (Join names)
      = .ok (names.foldl (fun mask t => mask ||| (lookupFlag vocab t).getD 0) 0) := by
  have hsplit : Split (Join names) = names :=
    split_join names hnil (fun n hn => by
      obtain ⟨e, he, rfl⟩ := hentry n hn
      exact (h1 e he).1)
  have hne : Join names ≠ "" := by
    intro h
    have hs : Split (Join names) = [""] := by rw [h]; rfl
    rw [hsplit] at hs
    obtain ⟨e, he, heq⟩ := hentry "" (by rw [hs]; simp)
    exact (h1 e he).2.2.1 heq
  have htrim : names.map TrimSpace = names := by
    conv_rhs => rw [← List.map_id names]
    apply List.map_congr_left
    intro n hn
    obtain ⟨e, he, rfl⟩ := hentry n hn
    exact (h1 e he).2.1
  have hfind : names.find? (fun t => (lookupFlag vocab t).isNone) = none := by
    apply List.find?_eq_none.2
    intro n hn
    obtain ⟨e, he, rfl⟩ := hentry n hn
    simp [(h1 e he).2.2.2]
  unfold parseFlagsSpec
  simp only [hne, if_false, hsplit, htrim, hfind]

/-- Parsing undoes formatting on every mask that is the OR of declared
bits, for any parser and formatter that follow the vocabulary. -/
theorem parse_format_generic (vocab : List (String × Nat)) (mkErr : String → AIOCError)
    (parse : String → Except AIOCError Nat) (fmt : Nat → String)
    (hparse : ∀ t, parse t = (parseFlagsSpec vocab t).mapError mkErr)
    (hfmt : ∀ m, fmt m =
      if m = 0 then "NONE"
      else if (vocab.filter (fun e => m &&& e.2 ≠ 0)).map Prod.fst = [] then sprintfHex08 m
      else formatFlagsSpec vocab m)
    (h1 : ∀ e ∈ vocab, '|' ∉ e.1.data ∧ TrimSpace e.1 = e.1 ∧ e.1 ≠ "" ∧
      lookupFlag vocab e.1 = some e.2)
    (h2 : ∀ e ∈ vocab, ∀ e2 ∈ vocab, (e2.2 &&& e.2 ≠ 0 ↔ e.2 ≠ 0 ∧ e2.1 = e.1))
    (hnone : parse "NONE" = .ok 0)
    (bits : List Nat) (hbits : ∀ b ∈ bits, b ≠ 0 ∧ ∃ e ∈ vocab, e.2 = b)
    (chosen : List Nat) (hchosen : ∀ b ∈ chosen, b ∈ bits) :
    parse (fmt (chosen.foldl (fun mask b => mask ||| b) 0))
      = .ok (chosen.foldl (fun mask b => mask ||| b) 0) := by
  generalize hm : chosen.foldl (fun mask b => mask ||| b) 0 = mask
  have hand : ∀ c, mask &&& c ≠ 0 ↔ ∃ b ∈ chosen, b &&& c ≠ 0 := by
    intro c
    rw [← hm, foldl_lor_nat_and_ne_zero]
    simp
  have hself : ∀ b ∈ chosen, mask &&& b ≠ 0 := by
    intro b hb
    exact (hand b).2 ⟨b, hb, by rw [Nat.and_self]; exact (hbits b (hchosen b hb)).1⟩
  by_cases h0 : mask = 0
  · rw [h0, hfmt, if_pos rfl, hnone]
  · have hex : ∃ e ∈ vocab, mask &&& e.2 ≠ 0 := by
      have : ∃ b ∈ chosen, b ≠ 0 := by
        by_contra hcon
        simp only [not_exists, not_and, not_not] at hcon
        apply h0
        rw [← hm]
        apply Nat.eq_of_testBit_eq
        intro i
        rw [Nat.zero_testBit]
        cases ht : (chosen.foldl (fun mask b => mask ||| b) 0).testBit i with
        | false => rfl
        | true =>
          obtain h | ⟨b, hb, hbt⟩ := (foldl_lor_nat_testBit chosen 0 i).1 ht
          · simp at h
          · rw [hcon b hb] at hbt
            simp at hbt
      obtain ⟨b, hb, -⟩ := this
      obtain ⟨-, e, he, heq⟩ := hbits b (hchosen b hb)
      exact ⟨e, he, heq ▸ hself b hb⟩
    rw [hfmt, if_neg h0, if_neg (names_ne_nil vocab mask hex), hparse]
    unfold formatFlagsSpec
    rw [parseFlagsSpec_join vocab h1 _ (names_ne_nil vocab mask hex) (by
      intro n hn
      obtain ⟨e, he, rfl⟩ := List.mem_map.1 hn
      exact ⟨e, (List.mem_filter.1 he).1, rfl⟩)]
    simp only [Except.mapError, Except.ok.injEq]
    apply Nat.eq_of_testBit_eq
    intro i
    rw [Bool.eq_iff_iff, foldl_lor_names_testBit, ← hm, foldl_lor_nat_testBit, hm]
    simp only [Nat.zero_testBit, Bool.false_eq_true, false_or]
    constructor
    · rintro ⟨n, hn, hbit⟩
      obtain ⟨e, he, rfl⟩ := List.mem_map.1 hn
      obtain ⟨hev, hp⟩ := List.mem_filter.1 he
      simp only [ne_eq, decide_not, Bool.not_eq_true', decide_eq_false_iff_not] at hp
      rw [(h1 e hev).2.2.2] at hbit
      obtain ⟨b, hb, hbe⟩ := (hand e.2).1 hp
      obtain ⟨-, e2, he2, heq⟩ := hbits b (hchosen b hb)
      subst heq
      have hname := ((h2 e hev e2 he2).1 hbe).2
      have hl := (h1 e2 he2).2.2.2
      rw [hname, (h1 e hev).2.2.2] at hl
      have hval : e.2 = e2.2 := Option.some.inj hl
      exact ⟨e2.2, hb, hval ▸ hbit⟩
    · rintro ⟨b, hb, hbit⟩
      obtain ⟨-, e, he, heq⟩ := hbits b (hchosen b hb)
      subst heq
      refine ⟨e.1, List.mem_map.2 ⟨e, List.mem_filter.2 ⟨he, by simpa using hself _ hb⟩, rfl⟩, ?_⟩
      rw [(h1 e he).2.2.2]
      exact hbit

theorem lookupFlag_none_of_head (vocab : List (String × Nat))
    (hhead : ∀ e ∈ vocab, e.1.data ≠ [] ∧ e.1.data.head? ≠ some '0')
    (q : String) (hq : q.data.head? = some '0') : lookupFlag vocab q = none := by
  unfold lookupFlag
  rw [List.find?_eq_none.2]
  · rfl
  · intro e he
    simp only [decide_eq_true_eq]
    intro heq
    exact (hhead e he).2 (heq ▸ hq)

theorem sprintfHex08_no_bar (v : Nat) : '|' ∉ (sprintfHex08 v).data := by
  rw [sprintfHex08_data]
  have h := fun n => (hexDigit_props (n % 16) (Nat.mod_lt _ (by decide))).2.1
  simp only [List.mem_cons, List.mem_singleton, List.not_mem_nil, or_false, not_or]
  exact ⟨by decide, by decide, (h _).symm, (h _).symm, (h _).symm, (h _).symm, (h _).symm,
    (h _).symm, (h _).symm, (h _).symm⟩

theorem trimSpace_sprintfHex08 (v : Nat) : TrimSpace (sprintfHex08 v) = sprintfHex08 v := by
  have hd : (sprintfHex08 v).data.dropWhile isSpace = (sprintfHex08 v).data := by
    rw [sprintfHex08_data]
    rw [List.dropWhile_cons_of_neg (by decide)]
  have hr : (sprintfHex08 v).data.rdropWhile isSpace = (sprintfHex08 v).data := by
    rw [List.rdropWhile_eq_self_iff]
    intro hl
    have hlast : (sprintfHex08 v).data.getLast hl = hexDigit (v % 16) := by
      simp only [sprintfHex08_data]
      rfl
    rw [hlast, (hexDigit_props (v % 16) (Nat.mod_lt _ (by decide))).2.2]
    decide
  unfold TrimSpace
  rw [hd, hr]

/-- The hexadecimal fallback text is rejected by a parser that follows a
vocabulary none of whose names starts with the digit 0. -/
theorem hex_rejected (vocab : List (String × Nat)) (mkErr : String → AIOCError)
    (parse : String → Except AIOCError Nat)
    (hparse : ∀ t, parse t = (parseFlagsSpec vocab t).mapError mkErr)
    (hhead : ∀ e ∈ vocab, e.1.data ≠ [] ∧ e.1.data.head? ≠ some '0') (mask : Nat) :
    parse (sprintfHex08 mask) = .error (mkErr (sprintfHex08 mask)) := by
  have hsplit : Split (sprintfHex08 mask) = [sprintfHex08 mask] := by
    unfold Split
    rw [splitChars_of_not_mem '|' _ (sprintfHex08_no_bar mask)]
    rfl
  have hne : sprintfHex08 mask ≠ "" := by
    intro h
    have := congrArg String.data h
    rw [sprintfHex08_data] at this
    exact absurd this (by simp)
  have hlook : lookupFlag vocab (sprintfHex08 mask) = none :=
    lookupFlag_none_of_head vocab hhead _ (by rw [sprintfHex08_data]; rfl)
  rw [hparse]
  unfold parseFlagsSpec
  simp only [hne, if_false, hsplit, List.map_cons, List.map_nil, trimSpace_sprintfHex08,
    List.find?, hlook, Option.isNone_none]
  rfl

theorem ptt_flag_bits : ∀ b ∈ pttFlagBits, b ≠ 0 ∧ ∃ e ∈ pttVocabulary, e.2 = b := by
  decide

theorem cm108_flag_bits : ∀ b ∈ cm108FlagBits, b ≠ 0 ∧ ∃ e ∈ cm108Vocabulary, e.2 = b := by
  decide

theorem mem_subsetMasks (bits : List Nat) (mask : Nat) (h : mask ∈ subsetMasks bits) :
    ∃ chosen : List Nat, (∀ b ∈ chosen, b ∈ bits) ∧
      chosen.foldl (fun mask b => mask ||| b) 0 = mask := by
  unfold subsetMasks at h
  obtain ⟨chosen, hc, heq⟩ := List.mem_map.1 h
  exact ⟨chosen, fun b hb => (List.mem_sublists.1 hc).subset hb, heq⟩

/-- C15: parsing undoes formatting on every mask made only of declared flag
bits: for each of the 512 PTT-source masks that are subsets of the nine
declared bits (zero included, rendered "NONE") `parsePTTSource` of
`pttSourceString` of the mask succeeds with the mask, and likewise for each of
the 8 button-source masks; for a non-zero mask with no declared bit set the
formatted text is rejected by the parser as an unknown token. -/
theorem parse_undoes_format (mask : Nat) :
    (subsetMasks pttFlagBits).length = 512 ∧ (subsetMasks cm108FlagBits).length = 8 ∧
      0 ∈ subsetMasks pttFlagBits ∧ 0 ∈ subsetMasks cm108FlagBits ∧
      pttSourceString 0 = "NONE" ∧ cm108ButtonSourceString 0 = "NONE" ∧
      (mask ∈ subsetMasks pttFlagBits →
        parsePTTSource (pttSourceString mask) = .ok mask) ∧
      (mask ∈ subsetMasks cm108FlagBits →
        parseCM108ButtonSource (cm108ButtonSourceString mask) = .ok mask) ∧
      (mask ≠ 0 → (∀ e ∈ pttVocabulary, mask &&& e.2 = 0) →
        parsePTTSource (pttSourceString mask)
          = .error (.unknownPTTSource (pttSourceString mask))) ∧
      (mask ≠ 0 → (∀ e ∈ cm108Vocabulary, mask &&& e.2 = 0) →
        parseCM108ButtonSource (cm108ButtonSourceString mask)
          = .error (.unknownButtonSource (cm108ButtonSourceString mask))) := by
  refine ⟨by simp [subsetMasks, pttFlagBits], by simp [subsetMasks, cm108FlagBits],
    ?_, ?_, by decide, by decide, ?_, ?_, ?_, ?_⟩
  · exact List.mem_map.2 ⟨[], List.mem_sublists.2 (List.nil_sublist _), rfl⟩
  · exact List.mem_map.2 ⟨[], List.mem_sublists.2 (List.nil_sublist _), rfl⟩
  · intro h
    obtain ⟨chosen, hc, rfl⟩ := mem_subsetMasks _ _ h
    exact parse_format_generic pttVocabulary AIOCError.unknownPTTSource parsePTTSource
      pttSourceString parsePTTSource_eq_spec pttSourceString_eq ptt_vocabulary_names
      ptt_vocabulary_bits (by decide) pttFlagBits ptt_flag_bits chosen hc
  · intro h
    obtain ⟨chosen, hc, rfl⟩ := mem_subsetMasks _ _ h
    exact parse_format_generic cm108Vocabulary AIOCError.unknownButtonSource
      parseCM108ButtonSource cm108ButtonSourceString parseCM108ButtonSource_eq_spec
      cm108ButtonSourceString_eq cm108_vocabulary_names cm108_vocabulary_bits (by decide)
      cm108FlagBits cm108_flag_bits chosen hc
  · intro h0 hall
    rw [(fallback_iff pttVocabulary pttSourceString pttSourceString_eq ptt_vocabulary_heads
      mask).2 ⟨h0, hall⟩]
    exact hex_rejected pttVocabulary AIOCError.unknownPTTSource parsePTTSource
      parsePTTSource_eq_spec ptt_vocabulary_heads mask
  · intro h0 hall
    rw [(fallback_iff cm108Vocabulary cm108ButtonSourceString cm108ButtonSourceString_eq
      cm108_vocabulary_heads mask).2 ⟨h0, hall⟩]
    exact hex_rejected cm108Vocabulary AIOCError.unknownButtonSource parseCM108ButtonSource
      parseCM108ButtonSource_eq_spec cm108_vocabulary_heads mask

/-- Witness for C15: the mask 0x1101 is a subset of the declared PTT bits
and survives formatting and parsing; the mask 0x2000 is not and its text is
rejected. -/
theorem parse_undoes_format_witness :
    parsePTTSource (pttSourceString 0x1101) = .ok 0x1101 ∧
      parsePTTSource (pttSourceString 0x2000) = .error (.unknownPTTSource "0x00002000") :=
  ⟨(parse_undoes_format 0x1101).2.2.2.2.2.2.1
      (List.mem_map.2 ⟨[0x1, 0x100, 0x1000], List.mem_sublists.2 (by decide), rfl⟩),
    ((parse_undoes_format 0x2000).2.2.2.2.2.2.2.2.1 (by decide) (by decide)).trans (by decide)⟩

end AIOC
